import Mathlib

/-!
# TicTacToe (src/tictactoe/main.cpp): a shallow embedding

The session object of `class TicTacToe` becomes the record `Session`; every
member function becomes a function on that record.  C++ `int` fields are
mathematical integers (`countMarks` stays within `0..9` on every run of the
program, the board cells within `-1..1`).  Code that can leave the program
(`exit(0)` on `SDL_QUIT`) or index `gameBoard` outside `0..8` returns in
`Except Halt`.  What the environment supplies (`rand()`, `SDL_GetTicks()`, the
polled events, the result of each image load) is an explicit argument.
-/

namespace TicTacToe

/-! ## Constants and enums (main.cpp 11-36) -/

abbrev WINDOW_WIDTH : Int := 500
abbrev WINDOW_HEIGHT : Int := 500
abbrev BOARD_LINE_SIZE : Nat := 3
abbrev BOARD_SIZE : Nat := BOARD_LINE_SIZE * BOARD_LINE_SIZE
abbrev WIN_CONDITION : Nat := BOARD_LINE_SIZE
abbrev MARK_DELAY : ℚ := 1 / 2

abbrev MARK_X : Int := -1
abbrev NO_MARK : Int := 0
abbrev MARK_O : Int := 1

abbrev IGNORE_RESULT : Int := -1
abbrev DRAW : Int := 0
abbrev WINNER_O : Int := 1
abbrev WINNER_X : Int := 2
abbrev RESULT_SIZE : Int := 3

abbrev NO_MESSAGE : Int := -1
abbrev X_WIN_MESSAGE : Int := 0
abbrev O_WIN_MESSAGE : Int := 1
abbrev DRAW_MESSAGE : Int := 2
abbrev MESSAGE_SIZE : Int := 3

/-- The value of SDL's `SDL_BUTTON_LEFT` (SDL_mouse.h). -/
abbrev SDL_BUTTON_LEFT : Nat := 1

/-! ## Data -/

/-- The fields of `SDL_Rect` that the program uses. -/
structure SDL_Rect where
  x : Int
  y : Int
  w : Int
  h : Int
deriving DecidableEq, Repr

/-- The `Timer` class: last frame delta (seconds) and the tick count it was taken at. -/
structure Timer where
  delta : ℚ
  lastTicks : Nat
deriving DecidableEq

/-- `int gameBoard[BOARD_SIZE]`. -/
abbrev Board := Fin 9 → Int

/-- The game fields of `class TicTacToe` (main.cpp 484-497). -/
structure Session where
  timer : Timer
  message : Int
  showMark : Bool
  showMarkDelay : ℚ
  currentPosition : Int
  lastPosition : Int
  pressedRect : Int
  rects : Fin 9 → SDL_Rect
  countMarks : Int
  currentPlayer : Int
  gameBoard : Board
  gameResult : Int

/-- What the environment returns when the program asks: `rand()` right after
`srand(time(0))`, and `SDL_GetTicks()`. -/
structure Env where
  rand : Nat
  ticks : Nat
deriving DecidableEq

/-- One event returned by `SDL_PollEvent`, by `event.type`; `other` is every type the
program does not look at. -/
inductive Event where
  | quit
  | mouseMotion (x y : Int)
  | mouseButtonDown (button : Nat)
  | mouseButtonUp (button : Nat)
  | other
deriving DecidableEq, Repr

/-- Ways a call does not come back with a session: `exit(0)`, or an access
`gameBoard[position]` with `position` outside `0..8`. -/
inductive Halt where
  | exited (code : Int)
  | outOfBounds (position : Int)
deriving DecidableEq, Repr

/-- A loaded `Texture` (main.cpp 40-47), by the size `SDL_QueryTexture` reported. -/
structure Texture where
  width : Int
  height : Int
deriving DecidableEq, Repr

/-- The texture fields of `class TicTacToe` (main.cpp 480-483); `none` is a null
`TexturePtr`. -/
structure Assets where
  board : Option Texture
  markX : Option Texture
  markO : Option Texture
  messages : Fin 3 → Option Texture

/-! ## Geometry (main.cpp 72-75, 214-232) -/

/-- `pointInRect` (main.cpp 72-75). -/
def pointInRect (x y : Int) (rect : SDL_Rect) : Bool :=
  decide (x ≥ rect.x) && decide (x < rect.x + rect.w) &&
    decide (y ≥ rect.y) && decide (y < rect.y + rect.h)

/-! ## The evaluator (main.cpp 258-260, 326-399) -/

/-- `getMark` (main.cpp 258-260): `gameBoard[i * BOARD_LINE_SIZE + j]`, for loop indices
`i, j < BOARD_LINE_SIZE`. -/
def getMark (b : Board) (i j : Fin 3) : Int :=
  b ⟨i.val * BOARD_LINE_SIZE + j.val, by have := i.isLt; have := j.isLt; simp only [BOARD_LINE_SIZE]; omega⟩

/-- `getWinnerByMarkCount` (main.cpp 389-399). -/
def getWinnerByMarkCount (count : Int) : Int :=
  if count.natAbs = BOARD_LINE_SIZE then
    if count < 0 then WINNER_X
    else if count > 0 then WINNER_O
    else IGNORE_RESULT
  else IGNORE_RESULT

/-- The scanning loop shared by `checkLines`, `checkRows` and `checkDiagonals`
(main.cpp 352-357): assign `gameResult` for each condition in turn, `break` at the
first one that is not `IGNORE_RESULT`.  The second argument is `gameResult` before
the loop. -/
def scanConditions : List Int → Int → Int
  | [], r => r
  | c :: cs, _ =>
    let r := getWinnerByMarkCount c
    if r ≠ IGNORE_RESULT then r else scanConditions cs r

/-- The accumulation `conditions[k] += term j` for `j = 0, 1, 2`, starting at 0. -/
def accumulate (term : Fin 3 → Int) : Int :=
  (List.finRange 3).foldl (fun acc j => acc + term j) 0

/-- `checkLines` (main.cpp 345-358): the three sums `conditions[i]` over `getMark(i, j)`. -/
def checkLines (s : Session) : Session :=
  let conditions : List Int :=
    (List.finRange 3).map (fun i => accumulate (fun j => getMark s.gameBoard i j))
  { s with gameResult := scanConditions conditions s.gameResult }

/-- `checkRows` (main.cpp 360-373): the three sums `conditions[i]` over `getMark(j, i)`. -/
def checkRows (s : Session) : Session :=
  let conditions : List Int :=
    (List.finRange 3).map (fun i => accumulate (fun j => getMark s.gameBoard j i))
  { s with gameResult := scanConditions conditions s.gameResult }

/-- `checkDiagonals` (main.cpp 375-387). -/
def checkDiagonals (s : Session) : Session :=
  let conditions : List Int :=
    [ accumulate (fun i => getMark s.gameBoard i i),
      accumulate (fun i => getMark s.gameBoard i
        ⟨(BOARD_LINE_SIZE - 1) - i.val, by simp only [BOARD_LINE_SIZE]; omega⟩) ]
  { s with gameResult := scanConditions conditions s.gameResult }

/-- `checkWinner` (main.cpp 326-343). -/
def checkWinner (s : Session) : Session :=
  let s1 := checkLines s
  if s1.gameResult ≠ IGNORE_RESULT then s1
  else
    let s2 := checkRows s1
    if s2.gameResult ≠ IGNORE_RESULT then s2
    else
      let s3 := checkDiagonals s2
      if s3.gameResult ≠ IGNORE_RESULT then s3
      else if s3.countMarks ≥ BOARD_SIZE then { s3 with gameResult := DRAW }
      else s3

/-! ## Start of a round (main.cpp 214-256) -/

/-- `getRandomPlayer` (main.cpp 254-256), on the value `rand()` returns. -/
def getRandomPlayer (env : Env) : Int :=
  if env.rand % 2 = 0 then MARK_X else MARK_O

/-- `Timer::setup` (main.cpp 56-58). -/
def Timer.setup (t : Timer) (env : Env) : Timer :=
  { t with lastTicks := env.ticks }

/-- `Timer::update` (main.cpp 60-65): `Uint32` subtraction, then the division by
`1000.f` taken exactly. -/
def Timer.update (t : Timer) (env : Env) : Timer :=
  { delta := (((env.ticks + 2 ^ 32 - t.lastTicks % 2 ^ 32) % 2 ^ 32 : Nat) : ℚ) / 1000,
    lastTicks := env.ticks }

/-- `resetGame` (main.cpp 234-252). -/
def resetGame (env : Env) (s : Session) : Session :=
  { s with
    message := NO_MESSAGE
    showMark := true
    showMarkDelay := MARK_DELAY
    lastPosition := -1
    currentPosition := -1
    pressedRect := -1
    countMarks := 0
    currentPlayer := getRandomPlayer env
    gameBoard := (List.finRange 9).foldl (fun b i => Function.update b i NO_MARK) s.gameBoard
    gameResult := IGNORE_RESULT
    timer := s.timer.setup env }

/-- The loop state of `setup`: the rectangles written so far and the running `x`, `y`. -/
structure SetupLoop where
  rects : Fin 9 → SDL_Rect
  x : Int
  y : Int

/-- The body of the inner loop of `setup` (main.cpp 220-225). -/
def setupInner (tileWidth tileHeight : Int) (i : Fin 3) (st : SetupLoop) (j : Fin 3) : SetupLoop :=
  let index : Fin 9 := ⟨i.val * BOARD_LINE_SIZE + j.val, by
    have := i.isLt; have := j.isLt; simp only [BOARD_LINE_SIZE]; omega⟩
  { st with
    rects := Function.update st.rects index
      { x := st.x, y := st.y, w := tileWidth, h := tileHeight }
    x := st.x + tileWidth }

/-- The body of the outer loop of `setup` (main.cpp 218-229). -/
def setupOuter (tileWidth tileHeight : Int) (st : SetupLoop) (i : Fin 3) : SetupLoop :=
  let st1 := (List.finRange 3).foldl (setupInner tileWidth tileHeight i) st
  { st1 with x := 0, y := st1.y + tileHeight }

/-- The rectangles `setup` leaves in `rects` (main.cpp 215-229). -/
def setupRects (rects : Fin 9 → SDL_Rect) : Fin 9 → SDL_Rect :=
  let tileWidth := WINDOW_WIDTH / (BOARD_LINE_SIZE : Int)
  let tileHeight := WINDOW_HEIGHT / (BOARD_LINE_SIZE : Int)
  ((List.finRange 3).foldl (setupOuter tileWidth tileHeight)
    { rects := rects, x := 0, y := 0 }).rects

/-- `setup` (main.cpp 214-232). -/
def setup (env : Env) (s : Session) : Session :=
  resetGame env { s with rects := setupRects s.rects }

/-! ## Placement (main.cpp 299-324) -/

/-- `swapPlayer` (main.cpp 322-324). -/
def swapPlayer (s : Session) : Session :=
  { s with currentPlayer := if s.currentPlayer = MARK_O then MARK_X else MARK_O }

/-- The `switch` of `markAt` (main.cpp 307-319). -/
def setMessage (s : Session) : Session :=
  if s.gameResult ≠ IGNORE_RESULT then
    if s.gameResult = WINNER_X then { s with message := X_WIN_MESSAGE }
    else if s.gameResult = WINNER_O then { s with message := O_WIN_MESSAGE }
    else if s.gameResult = DRAW then { s with message := DRAW_MESSAGE }
    else s
  else s

/-- `markAt` (main.cpp 299-320).  The access `gameBoard[position]` is defined for
`0 ≤ position < 9` only. -/
def markAt (s : Session) (player : Int) (position : Int) : Except Halt Session :=
  if h : 0 ≤ position ∧ position < 9 then
    let index : Fin 9 := ⟨position.toNat, by omega⟩
    if s.gameBoard index ≠ NO_MARK then .ok s
    else
      let s1 := { s with gameBoard := Function.update s.gameBoard index player }
      let s2 := { s1 with countMarks := s1.countMarks + 1 }
      let s3 := swapPlayer s2
      let s4 := checkWinner s3
      .ok (setMessage s4)
  else .error (.outOfBounds position)

/-! ## Input (main.cpp 262-297) -/

/-- The search loop of the `SDL_MOUSEMOTION` branch (main.cpp 279-284): the first
rectangle, in index order, that contains the point. -/
def hitRect (rects : Fin 9 → SDL_Rect) (x y : Int) : Option (Fin 9) :=
  (List.finRange 9).find? (fun i => pointInRect x y (rects i))

/-- The body of the `while (SDL_PollEvent(&event))` loop of `handleInput`
(main.cpp 265-295), for one polled event. -/
def handleEvent (env : Env) (s : Session) (event : Event) : Except Halt Session :=
  if event = .quit then .error (.exited 0)
  else if s.message ≠ NO_MESSAGE then
    match event with
    | .mouseButtonUp button =>
      if button = SDL_BUTTON_LEFT then .ok (resetGame env s) else .ok s
    | _ => .ok s
  else
    match event with
    | .mouseMotion x y =>
      match hitRect s.rects x y with
      | some i => .ok { s with currentPosition := (i.val : Int) }
      | none => .ok s
    | .mouseButtonDown button =>
      if button = SDL_BUTTON_LEFT then .ok { s with pressedRect := s.currentPosition }
      else .ok s
    | .mouseButtonUp button =>
      if button = SDL_BUTTON_LEFT then
        if s.pressedRect = s.currentPosition then markAt s s.currentPlayer s.currentPosition
        else .ok s
      else .ok s
    | _ => .ok s

/-- The `while` loop of `handleInput` over the events polled in one frame, each with
the environment it is handled in. -/
def handleEvents : Session → List (Env × Event) → Except Halt Session
  | s, [] => .ok s
  | s, (env, event) :: rest =>
    match handleEvent env s event with
    | .ok s1 => handleEvents s1 rest
    | .error e => .error e

/-- `handleInput` (main.cpp 262-297). -/
def handleInput (s : Session) (events : List (Env × Event)) : Except Halt Session :=
  handleEvents { s with lastPosition := s.currentPosition } events

/-! ## Blink timer (main.cpp 413-426) -/

/-- `processLogic` (main.cpp 413-426). -/
def processLogic (env : Env) (s : Session) : Session :=
  let s1 := { s with timer := s.timer.update env }
  let s2 :=
    if s1.lastPosition ≠ s1.currentPosition then
      { s1 with showMarkDelay := MARK_DELAY, showMark := true }
    else s1
  let s3 := { s2 with showMarkDelay := s2.showMarkDelay - s2.timer.delta }
  if s3.showMarkDelay < 0 then
    { s3 with showMark := !s3.showMark, showMarkDelay := MARK_DELAY }
  else s3

/-! ## Startup (main.cpp 79-94, 182-212) -/

/-- `loadAssets` (main.cpp 182-212).  `loadTexture` is the result of the member
function of that name for each file; a `throw` is `Except.error` with the text of
the exception. -/
def loadAssets (loadTexture : String → Option Texture) : Except String Assets :=
  let error := false
  let tmp := loadTexture "assets/board.png"
  let error := tmp.isNone
  let board := tmp
  let tmp := loadTexture "assets/mark_x.png"
  let error := tmp.isNone
  let markX := tmp
  let tmp := loadTexture "assets/mark_o.png"
  let error := tmp.isNone
  let markO := tmp
  let tmp := loadTexture "assets/message_x_winner.png"
  let error := tmp.isNone
  let messageX := tmp
  let tmp := loadTexture "assets/message_o_winner.png"
  let error := tmp.isNone
  let messageO := tmp
  let tmp := loadTexture "assets/message_draw.png"
  let error := tmp.isNone
  let messageDraw := tmp
  if error then .error "Não foi possível carregar as textures.\n"
  else .ok
    { board := board, markX := markX, markO := markO,
      messages := fun i =>
        if i.val = X_WIN_MESSAGE.toNat then messageX
        else if i.val = O_WIN_MESSAGE.toNat then messageO
        else messageDraw }

/-- What the platform answers during `create`: whether `SDL_Init`, `SDL_CreateWindow`,
`SDL_CreateRenderer` and `IMG_Init` succeed, and the result of `loadTexture` for each
file name. -/
structure Platform where
  sdlInit : Bool
  window : Bool
  renderer : Bool
  sdlImage : Bool
  loadTexture : String → Option Texture

/-- `create` (main.cpp 79-94): each of `initSDL`, `createWindow`, `createRenderer`,
`initSDLImage` and `loadAssets` throws on failure, and every exception ends in
`exit(-1)`; otherwise `setup` runs. -/
def create (platform : Platform) (env : Env) (s : Session) : Except Halt (Assets × Session) :=
  if !platform.sdlInit then .error (.exited (-1))
  else if !platform.window then .error (.exited (-1))
  else if !platform.renderer then .error (.exited (-1))
  else if !platform.sdlImage then .error (.exited (-1))
  else
    match loadAssets platform.loadTexture with
    | .error _ => .error (.exited (-1))
    | .ok assets => .ok (assets, setup env s)

/-! ## Vocabulary of the specification -/

/-- The 8 lines of the board as triples of cell indices: 3 rows, 3 columns, 2 diagonals. -/
def winLines : List (Fin 9 × Fin 9 × Fin 9) :=
  [(0, 1, 2), (3, 4, 5), (6, 7, 8), (0, 3, 6), (1, 4, 7), (2, 5, 8), (0, 4, 8), (2, 4, 6)]

/-- The three cells of line `l` all hold `m`. -/
def lineFilled (b : Board) (l : Fin 9 × Fin 9 × Fin 9) (m : Int) : Prop :=
  b l.1 = m ∧ b l.2.1 = m ∧ b l.2.2 = m

instance (b : Board) (l : Fin 9 × Fin 9 × Fin 9) (m : Int) : Decidable (lineFilled b l m) := by
  unfold lineFilled; infer_instance

/-- Every cell is one of `MARK_X`, `NO_MARK`, `MARK_O`. -/
def validCells (b : Board) : Prop :=
  ∀ i, b i = MARK_X ∨ b i = NO_MARK ∨ b i = MARK_O

instance (b : Board) : Decidable (validCells b) := by
  unfold validCells; infer_instance

/-- The win outcome of a mark: `WINNER_X` for `MARK_X`, `WINNER_O` for `MARK_O`. -/
def winOutcome (m : Int) : Int :=
  if m = MARK_X then WINNER_X else WINNER_O

/-- No line of the board is uniformly filled with a mark. -/
def noLineFilled (b : Board) : Prop :=
  ∀ k ∈ winLines, ¬ lineFilled b k MARK_X ∧ ¬ lineFilled b k MARK_O

instance (b : Board) : Decidable (noLineFilled b) := by
  unfold noLineFilled; infer_instance

/-- The number of cells that are not `NO_MARK`. -/
def countNonEmpty (b : Board) : Nat :=
  (List.finRange 9).countP (fun i => decide (b i ≠ NO_MARK))

/-- The other mark: `MARK_O` for `MARK_X`, `MARK_X` for `MARK_O`. -/
def otherMark (m : Int) : Int :=
  if m = MARK_X then MARK_O else MARK_X

/-- The session `markAt` returns when the cell at `i` is empty (main.cpp 303-319). -/
def placed (s : Session) (player : Int) (i : Fin 9) : Session :=
  setMessage (checkWinner (swapPlayer
    { s with gameBoard := Function.update s.gameBoard i player, countMarks := s.countMarks + 1 }))

/-- A call `markAt(player, position)` is an accepted placement when `position` is in
`0..8` and the cell there is empty. -/
def accepted (s : Session) (position : Int) : Bool :=
  if h : 0 ≤ position ∧ position < 9 then
    decide (s.gameBoard ⟨position.toNat, by omega⟩ = NO_MARK)
  else false

/-- A run of `markAt` calls, each a pair `(player, position)`, one after the other;
returns the last session and the number of accepted placements among the calls. -/
def markSeq : Session → List (Int × Int) → Except Halt (Session × Nat)
  | s, [] => .ok (s, 0)
  | s, (player, position) :: rest =>
    match markAt s player position with
    | .error e => .error e
    | .ok s1 =>
      match markSeq s1 rest with
      | .error e => .error e
      | .ok (t, n) => .ok (t, n + (if accepted s position then 1 else 0))

/-- The number of cells holding `m`. -/
def countMark (b : Board) (m : Int) : Nat :=
  (List.finRange 9).countP (fun i => decide (b i = m))

/-- The number of cells at which two boards differ. -/
def diffCells (b c : Board) : Nat :=
  (List.finRange 9).countP (fun i => decide (b i ≠ c i))

/-- The number of left-button `SDL_MOUSEBUTTONUP` events in a frame. -/
def leftUps (events : List (Env × Event)) : Nat :=
  events.countP (fun p => decide (p.2 = Event.mouseButtonUp SDL_BUTTON_LEFT))

/-- The sessions the program can be in between frames: the one `resetGame` leaves
(whatever the fields held before, hence also the one `setup` leaves), and every
session a call of `handleInput` returns from such a session. -/
inductive Reachable : Session → Prop
  | reset (env : Env) (s0 : Session) : Reachable (resetGame env s0)
  | frame {s t : Session} (events : List (Env × Event)) :
      Reachable s → handleInput s events = .ok t → Reachable t

/-- The session object as constructed, before `create` runs: `Timer()` zeroes the timer,
the other fields are not initialised and are taken as zero. -/
def initial : Session :=
  { timer := ⟨0, 0⟩, message := 0, showMark := false, showMarkDelay := 0,
    currentPosition := 0, lastPosition := 0, pressedRect := 0,
    rects := fun _ => ⟨0, 0, 0, 0⟩, countMarks := 0, currentPlayer := 0,
    gameBoard := fun _ => 0, gameResult := 0 }

/-- A session in mid-game: `setup` with `MARK_X` to start, then X at 0, O at 1, X at 4,
the pointer resting over cell 3. -/
def midGame : Session :=
  { setup ⟨0, 0⟩ initial with
    gameBoard := ![MARK_X, MARK_O, NO_MARK, NO_MARK, MARK_X, NO_MARK, NO_MARK, NO_MARK, NO_MARK]
    countMarks := 3
    currentPlayer := MARK_O
    currentPosition := 3
    lastPosition := 3
    pressedRect := 4 }

/-- The marks on the board and the active mark agree with strict alternation: the
active mark is `MARK_X` or `MARK_O`, and either the two marks are level, or `MARK_X`
is one ahead and `MARK_O` is to move, or `MARK_O` is one ahead and `MARK_X` is to move. -/
def turnInvariant (s : Session) : Prop :=
  (s.currentPlayer = MARK_X ∨ s.currentPlayer = MARK_O) ∧
  (countMark s.gameBoard MARK_X = countMark s.gameBoard MARK_O ∨
   (countMark s.gameBoard MARK_X = countMark s.gameBoard MARK_O + 1 ∧
      s.currentPlayer = MARK_O) ∨
   (countMark s.gameBoard MARK_O = countMark s.gameBoard MARK_X + 1 ∧
      s.currentPlayer = MARK_X))

/-- The events of one click on the cell under the point `(x, y)`: the pointer moves
there, the left button goes down and comes up. -/
def click (x y : Int) : List (Env × Event) :=
  [(⟨0, 0⟩, .mouseMotion x y), (⟨0, 0⟩, .mouseButtonDown SDL_BUTTON_LEFT),
   (⟨0, 0⟩, .mouseButtonUp SDL_BUTTON_LEFT)]

/-- The session of a result, `initial` when the call did not return one. -/
def sessionOf (r : Except Halt Session) : Session :=
  match r with
  | .ok t => t
  | .error _ => initial

/-- Whether a call came back with a session. -/
def returned (r : Except Halt Session) : Bool :=
  match r with
  | .ok _ => true
  | .error _ => false

/-- The session after `setup` and one frame with a click on cell 0. -/
def firstClick : Session :=
  sessionOf (handleInput (setup ⟨0, 0⟩ initial) (click 10 10))

/-- Two clicks polled in one frame after `setup`: on cell 0, then on cell 1. -/
def twoClicks : List (Env × Event) :=
  click 10 10 ++ click 200 10

/-- A finished round: after `setup`, clicks on cells 0, 3, 1, 4, 2 put `MARK_X` on the
top row. -/
def wonRound : Session :=
  sessionOf (handleInput (setup ⟨0, 0⟩ initial)
    (click 10 10 ++ click 10 200 ++ click 200 10 ++ click 200 200 ++ click 400 10))

/-- Image loading where `assets/board.png` cannot be loaded and the other five files
load as 64 by 64 textures. -/
def missingBoard (filename : String) : Option Texture :=
  if filename = "assets/board.png" then none else some ⟨64, 64⟩

/-- The session `midGame` with the same cells and `countMarks` and another hovered cell,
armed cell, active mark, previous outcome and banner. -/
def midGameOther : Session :=
  { midGame with
    currentPosition := 8
    pressedRect := 0
    currentPlayer := MARK_X
    gameResult := DRAW
    message := DRAW_MESSAGE }

/-- A full board without a complete line, with `countMarks` at 9. -/
def fullBoard : Session :=
  { midGame with
    gameBoard := ![MARK_X, MARK_O, MARK_X, MARK_X, MARK_O, MARK_O, MARK_O, MARK_X, MARK_X]
    countMarks := 9 }

/-- The session `fullBoard` with `countMarks` at 0: same 9 cells. -/
def fullBoardUncounted : Session :=
  { fullBoard with countMarks := 0 }

/-- The eight sums in the order `checkWinner` looks at them: the `conditions` of
`checkLines`, of `checkRows` and of `checkDiagonals`. -/
def lineSums (b : Board) : List Int :=
  [b 0 + b 1 + b 2, b 3 + b 4 + b 5, b 6 + b 7 + b 8,
   b 0 + b 3 + b 6, b 1 + b 4 + b 7, b 2 + b 5 + b 8,
   b 0 + b 4 + b 8, b 2 + b 4 + b 6]

/-- The banner of an outcome: `X_WIN_MESSAGE` for `WINNER_X`, `O_WIN_MESSAGE` for
`WINNER_O`, `DRAW_MESSAGE` for `DRAW`, and `NO_MESSAGE` (Playing) otherwise. -/
def bannerOf (gameResult : Int) : Int :=
  if gameResult = WINNER_X then X_WIN_MESSAGE
  else if gameResult = WINNER_O then O_WIN_MESSAGE
  else if gameResult = DRAW then DRAW_MESSAGE
  else NO_MESSAGE

/-- The `gameResult` that `checkWinner` leaves in a session with cells `b` and mark
count `countMarks`: `checkWinner` run on `initial` with these two fields. -/
def outcome (b : Board) (countMarks : Int) : Int :=
  (checkWinner { initial with gameBoard := b, countMarks := countMarks }).gameResult

/-- The row with index `r`, as a line: cells `3r`, `3r + 1`, `3r + 2`. -/
def rowLine (r : Fin 3) : Fin 9 × Fin 9 × Fin 9 :=
  (⟨3 * r.val, by omega⟩, ⟨3 * r.val + 1, by omega⟩, ⟨3 * r.val + 2, by omega⟩)

/-- A full board on which the last move, `MARK_X` at cell 3, completed both the middle
row and the left column. -/
def rowAndColumn : Session :=
  { midGame with
    gameBoard := ![MARK_X, MARK_O, MARK_O, MARK_X, MARK_X, MARK_X, MARK_X, MARK_O, MARK_O]
    countMarks := 9 }

/-- The session `midGame` in a frame where the hovered cell changed, from 2 to 3; the
timer was last read at tick 0. -/
def hoverChanged : Session :=
  { midGame with lastPosition := 2 }

/-- The win banner of a mark: `X_WIN_MESSAGE` for `MARK_X`, `O_WIN_MESSAGE` for `MARK_O`. -/
def winBanner (m : Int) : Int :=
  if m = MARK_X then X_WIN_MESSAGE else O_WIN_MESSAGE

/-- What holds of every session between frames: the cells are marks or empty, the
active mark is `MARK_X` or `MARK_O`, `countMarks` is the number of non-empty cells, and
while the round is being played (`message == NO_MESSAGE`) no line is complete. -/
def roundInvariant (s : Session) : Prop :=
  validCells s.gameBoard ∧
  (s.currentPlayer = MARK_X ∨ s.currentPlayer = MARK_O) ∧
  s.countMarks = (countNonEmpty s.gameBoard : Int) ∧
  (s.message = NO_MESSAGE → noLineFilled s.gameBoard)

/-- The clicks on cells 0, 3, 1, 4, polled in one frame. -/
def fourClicks : List (Env × Event) :=
  click 10 10 ++ click 10 200 ++ click 200 10 ++ click 200 200

/-- The session after `setup` and the frame `fourClicks`: `MARK_X` on cells 0 and 1,
`MARK_O` on cells 3 and 4, `MARK_X` to move. -/
def beforeWin : Session :=
  sessionOf (handleInput (setup ⟨0, 0⟩ initial) fourClicks)

/-! ## Evaluation lemmas -/

theorem finRange_three : List.finRange 3 = [0, 1, 2] := by decide

theorem finRange_nine : List.finRange 9 = [0, 1, 2, 3, 4, 5, 6, 7, 8] := by decide

theorem getWinnerByMarkCount_eq (c : Int) :
    getWinnerByMarkCount c =
      if c = -3 then WINNER_X else if c = 3 then WINNER_O else IGNORE_RESULT := by
  unfold getWinnerByMarkCount
  simp only [BOARD_LINE_SIZE]
  split_ifs <;> first | rfl | omega

theorem checkLines_eq (s : Session) :
    checkLines s = { s with gameResult := (scanConditions
      [s.gameBoard 0 + s.gameBoard 1 + s.gameBoard 2,
       s.gameBoard 3 + s.gameBoard 4 + s.gameBoard 5,
       s.gameBoard 6 + s.gameBoard 7 + s.gameBoard 8] s.gameResult) } := by
  simp only [checkLines, accumulate, finRange_three, List.map, List.foldl, getMark, zero_add]
  rfl

theorem checkRows_eq (s : Session) :
    checkRows s = { s with gameResult := (scanConditions
      [s.gameBoard 0 + s.gameBoard 3 + s.gameBoard 6,
       s.gameBoard 1 + s.gameBoard 4 + s.gameBoard 7,
       s.gameBoard 2 + s.gameBoard 5 + s.gameBoard 8] s.gameResult) } := by
  simp only [checkRows, accumulate, finRange_three, List.map, List.foldl, getMark, zero_add]
  rfl

theorem checkDiagonals_eq (s : Session) :
    checkDiagonals s = { s with gameResult := (scanConditions
      [s.gameBoard 0 + s.gameBoard 4 + s.gameBoard 8,
       s.gameBoard 2 + s.gameBoard 4 + s.gameBoard 6] s.gameResult) } := by
  simp only [checkDiagonals, accumulate, finRange_three, List.map, List.foldl, getMark, zero_add]
  rfl

theorem checkWinner_gameResult (s : Session) :
    (checkWinner s).gameResult =
      if scanConditions (lineSums s.gameBoard) s.gameResult ≠ IGNORE_RESULT then
        scanConditions (lineSums s.gameBoard) s.gameResult
      else if s.countMarks ≥ 9 then DRAW else IGNORE_RESULT := by
  simp only [checkWinner, checkLines_eq, checkRows_eq, checkDiagonals_eq, lineSums,
    scanConditions]
  generalize getWinnerByMarkCount (s.gameBoard 0 + s.gameBoard 1 + s.gameBoard 2) = g0
  generalize getWinnerByMarkCount (s.gameBoard 3 + s.gameBoard 4 + s.gameBoard 5) = g1
  generalize getWinnerByMarkCount (s.gameBoard 6 + s.gameBoard 7 + s.gameBoard 8) = g2
  generalize getWinnerByMarkCount (s.gameBoard 0 + s.gameBoard 3 + s.gameBoard 6) = g3
  generalize getWinnerByMarkCount (s.gameBoard 1 + s.gameBoard 4 + s.gameBoard 7) = g4
  generalize getWinnerByMarkCount (s.gameBoard 2 + s.gameBoard 5 + s.gameBoard 8) = g5
  generalize getWinnerByMarkCount (s.gameBoard 0 + s.gameBoard 4 + s.gameBoard 8) = g6
  generalize getWinnerByMarkCount (s.gameBoard 2 + s.gameBoard 4 + s.gameBoard 6) = g7
  by_cases h0 : g0 = IGNORE_RESULT
  swap
  · simp [h0]
  by_cases h1 : g1 = IGNORE_RESULT
  swap
  · simp [h0, h1]
  by_cases h2 : g2 = IGNORE_RESULT
  swap
  · simp [h0, h1, h2]
  by_cases h3 : g3 = IGNORE_RESULT
  swap
  · simp [h0, h1, h2, h3]
  by_cases h4 : g4 = IGNORE_RESULT
  swap
  · simp [h0, h1, h2, h3, h4]
  by_cases h5 : g5 = IGNORE_RESULT
  swap
  · simp [h0, h1, h2, h3, h4, h5]
  by_cases h6 : g6 = IGNORE_RESULT
  swap
  · simp [h0, h1, h2, h3, h4, h5, h6]
  by_cases h7 : g7 = IGNORE_RESULT
  swap
  · simp [h0, h1, h2, h3, h4, h5, h6, h7]
  have hb : ((BOARD_SIZE : Nat) : Int) = 9 := rfl
  simp only [h0, h1, h2, h3, h4, h5, h6, h7, ne_eq, not_true_eq_false, if_false, hb]
  split_ifs <;> rfl

theorem checkLines_frame (s : Session) :
    checkLines s = { s with gameResult := (checkLines s).gameResult } := rfl

theorem checkRows_frame (s : Session) :
    checkRows s = { s with gameResult := (checkRows s).gameResult } := rfl

theorem checkDiagonals_frame (s : Session) :
    checkDiagonals s = { s with gameResult := (checkDiagonals s).gameResult } := rfl

/-- `checkWinner` writes `gameResult` and nothing else. -/
theorem checkWinner_frame (s : Session) :
    checkWinner s = { s with gameResult := (checkWinner s).gameResult } := by
  unfold checkWinner
  simp only
  split_ifs <;> rfl

theorem scanConditions_cons (c : Int) (cs : List Int) (r : Int) :
    scanConditions (c :: cs) r =
      if c = -3 then WINNER_X else if c = 3 then WINNER_O
      else scanConditions cs IGNORE_RESULT := by
  by_cases h1 : c = -3
  · simp only [scanConditions, getWinnerByMarkCount_eq, h1, if_true]
    rw [if_pos (by decide)]
  · by_cases h2 : c = 3
    · simp only [scanConditions, getWinnerByMarkCount_eq, h2, if_true]
      rw [if_pos (by decide)]
    · simp [scanConditions, getWinnerByMarkCount_eq, h1, h2]

theorem scanConditions_lineSums (b : Board) (r : Int) :
    scanConditions (lineSums b) r =
      if b 0 + b 1 + b 2 = -3 then WINNER_X else if b 0 + b 1 + b 2 = 3 then WINNER_O
      else if b 3 + b 4 + b 5 = -3 then WINNER_X else if b 3 + b 4 + b 5 = 3 then WINNER_O
      else if b 6 + b 7 + b 8 = -3 then WINNER_X else if b 6 + b 7 + b 8 = 3 then WINNER_O
      else if b 0 + b 3 + b 6 = -3 then WINNER_X else if b 0 + b 3 + b 6 = 3 then WINNER_O
      else if b 1 + b 4 + b 7 = -3 then WINNER_X else if b 1 + b 4 + b 7 = 3 then WINNER_O
      else if b 2 + b 5 + b 8 = -3 then WINNER_X else if b 2 + b 5 + b 8 = 3 then WINNER_O
      else if b 0 + b 4 + b 8 = -3 then WINNER_X else if b 0 + b 4 + b 8 = 3 then WINNER_O
      else if b 2 + b 4 + b 6 = -3 then WINNER_X else if b 2 + b 4 + b 6 = 3 then WINNER_O
      else IGNORE_RESULT := by
  simp only [lineSums, scanConditions_cons]
  rfl

theorem sum_eq_neg_three (a b c : Int) (ha : a = MARK_X ∨ a = NO_MARK ∨ a = MARK_O)
    (hb : b = MARK_X ∨ b = NO_MARK ∨ b = MARK_O) (hc : c = MARK_X ∨ c = NO_MARK ∨ c = MARK_O) :
    a + b + c = -3 ↔ (a = MARK_X ∧ b = MARK_X ∧ c = MARK_X) := by
  simp only [MARK_X, NO_MARK, MARK_O] at *
  omega

theorem sum_eq_three (a b c : Int) (ha : a = MARK_X ∨ a = NO_MARK ∨ a = MARK_O)
    (hb : b = MARK_X ∨ b = NO_MARK ∨ b = MARK_O) (hc : c = MARK_X ∨ c = NO_MARK ∨ c = MARK_O) :
    a + b + c = 3 ↔ (a = MARK_O ∧ b = MARK_O ∧ c = MARK_O) := by
  simp only [MARK_X, NO_MARK, MARK_O] at *
  omega

/-- On a board of marks the scan of the eight sums is the scan of the eight lines for a
uniformly filled one, rows first, then columns, then the two diagonals. -/
theorem scanConditions_filled (b : Board) (r : Int) (hcells : validCells b) :
    scanConditions (lineSums b) r =
      if lineFilled b (0, 1, 2) MARK_X then WINNER_X
      else if lineFilled b (0, 1, 2) MARK_O then WINNER_O
      else if lineFilled b (3, 4, 5) MARK_X then WINNER_X
      else if lineFilled b (3, 4, 5) MARK_O then WINNER_O
      else if lineFilled b (6, 7, 8) MARK_X then WINNER_X
      else if lineFilled b (6, 7, 8) MARK_O then WINNER_O
      else if lineFilled b (0, 3, 6) MARK_X then WINNER_X
      else if lineFilled b (0, 3, 6) MARK_O then WINNER_O
      else if lineFilled b (1, 4, 7) MARK_X then WINNER_X
      else if lineFilled b (1, 4, 7) MARK_O then WINNER_O
      else if lineFilled b (2, 5, 8) MARK_X then WINNER_X
      else if lineFilled b (2, 5, 8) MARK_O then WINNER_O
      else if lineFilled b (0, 4, 8) MARK_X then WINNER_X
      else if lineFilled b (0, 4, 8) MARK_O then WINNER_O
      else if lineFilled b (2, 4, 6) MARK_X then WINNER_X
      else if lineFilled b (2, 4, 6) MARK_O then WINNER_O
      else IGNORE_RESULT := by
  rw [scanConditions_lineSums]
  simp only [lineFilled,
    sum_eq_neg_three _ _ _ (hcells 0) (hcells 1) (hcells 2),
    sum_eq_three _ _ _ (hcells 0) (hcells 1) (hcells 2),
    sum_eq_neg_three _ _ _ (hcells 3) (hcells 4) (hcells 5),
    sum_eq_three _ _ _ (hcells 3) (hcells 4) (hcells 5),
    sum_eq_neg_three _ _ _ (hcells 6) (hcells 7) (hcells 8),
    sum_eq_three _ _ _ (hcells 6) (hcells 7) (hcells 8),
    sum_eq_neg_three _ _ _ (hcells 0) (hcells 3) (hcells 6),
    sum_eq_three _ _ _ (hcells 0) (hcells 3) (hcells 6),
    sum_eq_neg_three _ _ _ (hcells 1) (hcells 4) (hcells 7),
    sum_eq_three _ _ _ (hcells 1) (hcells 4) (hcells 7),
    sum_eq_neg_three _ _ _ (hcells 2) (hcells 5) (hcells 8),
    sum_eq_three _ _ _ (hcells 2) (hcells 5) (hcells 8),
    sum_eq_neg_three _ _ _ (hcells 0) (hcells 4) (hcells 8),
    sum_eq_three _ _ _ (hcells 0) (hcells 4) (hcells 8),
    sum_eq_neg_three _ _ _ (hcells 2) (hcells 4) (hcells 6),
    sum_eq_three _ _ _ (hcells 2) (hcells 4) (hcells 6)]

theorem lineFilled_unique {b : Board} {k : Fin 9 × Fin 9 × Fin 9} {m n : Int}
    (h1 : lineFilled b k m) (h2 : lineFilled b k n) : m = n :=
  h1.1.symm.trans h2.1

/-- When `l` is the only uniformly filled line and it holds `m`, a line `k` holds the
mark `n` exactly when `k` is `l` and `n` is `m`. -/
theorem lineFilled_iff_of_single {b : Board} {l : Fin 9 × Fin 9 × Fin 9} {m : Int}
    (hfill : lineFilled b l m)
    (hothers : ∀ k ∈ winLines, k ≠ l →
      ¬ lineFilled b k MARK_X ∧ ¬ lineFilled b k MARK_O)
    (k : Fin 9 × Fin 9 × Fin 9) (hk : k ∈ winLines) (n : Int)
    (hn : n = MARK_X ∨ n = MARK_O) :
    lineFilled b k n ↔ (k = l ∧ n = m) := by
  constructor
  · intro h
    by_cases hkl : k = l
    · subst hkl
      exact ⟨rfl, lineFilled_unique h hfill⟩
    · rcases hn with rfl | rfl
      · exact absurd h (hothers k hk hkl).1
      · exact absurd h (hothers k hk hkl).2
  · rintro ⟨rfl, rfl⟩
    exact hfill

/-! ## The evaluator on a board with one complete line -/

/-- C1: on a board with cells in `MARK_X`, `NO_MARK`, `MARK_O` where the three cells of
one of the 8 lines all hold the mark `m` and no other line is uniformly filled with a
mark, `checkWinner` leaves `gameResult` at the win outcome of `m`, whatever
`countMarks` (and every other field) is. -/
theorem checkWinner_single_line (s : Session) (l : Fin 9 × Fin 9 × Fin 9) (m : Int)
    (hcells : validCells s.gameBoard) (hl : l ∈ winLines)
    (hm : m = MARK_X ∨ m = MARK_O) (hfill : lineFilled s.gameBoard l m)
    (hothers : ∀ k ∈ winLines, k ≠ l →
      ¬ lineFilled s.gameBoard k MARK_X ∧ ¬ lineFilled s.gameBoard k MARK_O) :
    (checkWinner s).gameResult = winOutcome m := by
  have key : scanConditions (lineSums s.gameBoard) s.gameResult = winOutcome m := by
    rw [scanConditions_filled _ _ hcells]
    have f := lineFilled_iff_of_single hfill hothers
    simp only [f (0, 1, 2) (by decide) MARK_X (Or.inl rfl), f (0, 1, 2) (by decide) MARK_O (Or.inr rfl),
      f (3, 4, 5) (by decide) MARK_X (Or.inl rfl), f (3, 4, 5) (by decide) MARK_O (Or.inr rfl),
      f (6, 7, 8) (by decide) MARK_X (Or.inl rfl), f (6, 7, 8) (by decide) MARK_O (Or.inr rfl),
      f (0, 3, 6) (by decide) MARK_X (Or.inl rfl), f (0, 3, 6) (by decide) MARK_O (Or.inr rfl),
      f (1, 4, 7) (by decide) MARK_X (Or.inl rfl), f (1, 4, 7) (by decide) MARK_O (Or.inr rfl),
      f (2, 5, 8) (by decide) MARK_X (Or.inl rfl), f (2, 5, 8) (by decide) MARK_O (Or.inr rfl),
      f (0, 4, 8) (by decide) MARK_X (Or.inl rfl), f (0, 4, 8) (by decide) MARK_O (Or.inr rfl),
      f (2, 4, 6) (by decide) MARK_X (Or.inl rfl), f (2, 4, 6) (by decide) MARK_O (Or.inr rfl)]
    clear f hfill hothers hcells
    simp only [winLines, List.mem_cons, List.mem_singleton, List.not_mem_nil, or_false] at hl
    rcases hl with rfl | rfl | rfl | rfl | rfl | rfl | rfl | rfl <;>
      rcases hm with rfl | rfl <;> decide
  rw [checkWinner_gameResult, key]
  rcases hm with rfl | rfl <;> rfl

/-- C1 at a concrete board: the left column holds `MARK_O`, nothing else is complete. -/
theorem checkWinner_single_line_witness :
    (checkWinner
      { timer := ⟨0, 0⟩, message := NO_MESSAGE, showMark := true, showMarkDelay := MARK_DELAY,
        currentPosition := 6, lastPosition := 6, pressedRect := 6,
        rects := setupRects (fun _ => ⟨0, 0, 0, 0⟩), countMarks := 5,
        currentPlayer := MARK_X,
        gameBoard := ![MARK_O, MARK_X, NO_MARK, MARK_O, MARK_X, NO_MARK, MARK_O, NO_MARK, NO_MARK],
        gameResult := IGNORE_RESULT }).gameResult = WINNER_O :=
  checkWinner_single_line _ (0, 3, 6) MARK_O (by decide) (by decide) (Or.inr rfl)
    (by decide) (by set_option maxRecDepth 10000 in decide)

/-! ## The evaluator on a board with no complete line -/

theorem scanConditions_noLine (b : Board) (r : Int) (hcells : validCells b)
    (hno : noLineFilled b) : scanConditions (lineSums b) r = IGNORE_RESULT := by
  rw [scanConditions_filled _ _ hcells]
  simp only [(hno (0, 1, 2) (by decide)).1, (hno (0, 1, 2) (by decide)).2,
    (hno (3, 4, 5) (by decide)).1, (hno (3, 4, 5) (by decide)).2,
    (hno (6, 7, 8) (by decide)).1, (hno (6, 7, 8) (by decide)).2,
    (hno (0, 3, 6) (by decide)).1, (hno (0, 3, 6) (by decide)).2,
    (hno (1, 4, 7) (by decide)).1, (hno (1, 4, 7) (by decide)).2,
    (hno (2, 5, 8) (by decide)).1, (hno (2, 5, 8) (by decide)).2,
    (hno (0, 4, 8) (by decide)).1, (hno (0, 4, 8) (by decide)).2,
    (hno (2, 4, 6) (by decide)).1, (hno (2, 4, 6) (by decide)).2, if_false]

theorem countNonEmpty_le (b : Board) : countNonEmpty b ≤ 9 := by
  have h := List.countP_le_length (fun i => decide (b i ≠ NO_MARK)) (l := List.finRange 9)
  simpa [countNonEmpty] using h

theorem countNonEmpty_eq_nine (b : Board) :
    countNonEmpty b = 9 ↔ ∀ i, b i ≠ NO_MARK := by
  have h := List.countP_eq_length (p := fun i => decide (b i ≠ NO_MARK)) (l := List.finRange 9)
  simp only [List.length_finRange, List.mem_finRange, true_implies, decide_eq_true_eq] at h
  exact h

/-- C2: on a board with cells in `MARK_X`, `NO_MARK`, `MARK_O`, no line uniformly filled
with a mark and `countMarks` equal to the number of non-empty cells, `checkWinner`
leaves `gameResult` at `DRAW` when all 9 cells are filled and at `IGNORE_RESULT` when
some cell is empty; in either case it is not a win. -/
theorem checkWinner_no_line (s : Session) (hcells : validCells s.gameBoard)
    (hno : noLineFilled s.gameBoard)
    (hcount : s.countMarks = (countNonEmpty s.gameBoard : Int)) :
    ((∀ i, s.gameBoard i ≠ NO_MARK) → (checkWinner s).gameResult = DRAW) ∧
    ((∃ i, s.gameBoard i = NO_MARK) → (checkWinner s).gameResult = IGNORE_RESULT) ∧
    (checkWinner s).gameResult ≠ WINNER_X ∧ (checkWinner s).gameResult ≠ WINNER_O := by
  have hres : (checkWinner s).gameResult =
      if s.countMarks ≥ 9 then DRAW else IGNORE_RESULT := by
    rw [checkWinner_gameResult, scanConditions_noLine _ _ hcells hno]
    rfl
  have hle := countNonEmpty_le s.gameBoard
  have hnine := countNonEmpty_eq_nine s.gameBoard
  refine ⟨fun hfull => ?_, fun hempty => ?_, ?_, ?_⟩
  · rw [hres, if_pos]
    have := hnine.mpr hfull
    omega
  · rw [hres, if_neg]
    obtain ⟨i, hi⟩ := hempty
    have hne : countNonEmpty s.gameBoard ≠ 9 := fun h => hnine.mp h i hi
    omega
  · rw [hres]
    split_ifs <;> decide
  · rw [hres]
    split_ifs <;> decide

/-- C2 at a full board without a complete line: the outcome is `DRAW`. -/
theorem checkWinner_no_line_witness :
    (checkWinner
      { timer := ⟨0, 0⟩, message := NO_MESSAGE, showMark := true, showMarkDelay := MARK_DELAY,
        currentPosition := 8, lastPosition := 8, pressedRect := 8,
        rects := setupRects (fun _ => ⟨0, 0, 0, 0⟩), countMarks := 9,
        currentPlayer := MARK_O,
        gameBoard := ![MARK_X, MARK_O, MARK_X, MARK_X, MARK_O, MARK_O, MARK_O, MARK_X, MARK_X],
        gameResult := IGNORE_RESULT }).gameResult = DRAW :=
  (checkWinner_no_line _ (by decide) (by set_option maxRecDepth 10000 in decide)
    (by decide)).1 (by decide)

/-! ## Placement -/

@[simp] theorem checkWinner_gameBoard (s : Session) :
    (checkWinner s).gameBoard = s.gameBoard := by rw [checkWinner_frame]

@[simp] theorem checkWinner_countMarks (s : Session) :
    (checkWinner s).countMarks = s.countMarks := by rw [checkWinner_frame]

@[simp] theorem checkWinner_currentPlayer (s : Session) :
    (checkWinner s).currentPlayer = s.currentPlayer := by rw [checkWinner_frame]

@[simp] theorem checkWinner_message (s : Session) :
    (checkWinner s).message = s.message := by rw [checkWinner_frame]

@[simp] theorem checkWinner_currentPosition (s : Session) :
    (checkWinner s).currentPosition = s.currentPosition := by rw [checkWinner_frame]

@[simp] theorem checkWinner_pressedRect (s : Session) :
    (checkWinner s).pressedRect = s.pressedRect := by rw [checkWinner_frame]

@[simp] theorem checkWinner_rects (s : Session) :
    (checkWinner s).rects = s.rects := by rw [checkWinner_frame]

/-- `setMessage` writes `message` and nothing else. -/
theorem setMessage_frame (s : Session) :
    setMessage s = { s with message := (setMessage s).message } := by
  unfold setMessage
  split_ifs <;> rfl

@[simp] theorem setMessage_gameBoard (s : Session) :
    (setMessage s).gameBoard = s.gameBoard := by rw [setMessage_frame]

@[simp] theorem setMessage_countMarks (s : Session) :
    (setMessage s).countMarks = s.countMarks := by rw [setMessage_frame]

@[simp] theorem setMessage_currentPlayer (s : Session) :
    (setMessage s).currentPlayer = s.currentPlayer := by rw [setMessage_frame]

@[simp] theorem setMessage_gameResult (s : Session) :
    (setMessage s).gameResult = s.gameResult := by rw [setMessage_frame]

@[simp] theorem setMessage_currentPosition (s : Session) :
    (setMessage s).currentPosition = s.currentPosition := by rw [setMessage_frame]

@[simp] theorem setMessage_pressedRect (s : Session) :
    (setMessage s).pressedRect = s.pressedRect := by rw [setMessage_frame]

@[simp] theorem setMessage_rects (s : Session) :
    (setMessage s).rects = s.rects := by rw [setMessage_frame]

theorem markAt_inRange (s : Session) (player : Int) (i : Fin 9) :
    markAt s player (i.val : Int) =
      if s.gameBoard i ≠ NO_MARK then .ok s else .ok (placed s player i) := by
  have hi := i.isLt
  have hr : (0 : Int) ≤ (i.val : Int) ∧ (i.val : Int) < 9 := by omega
  have hidx : (⟨((i.val : Int)).toNat, by omega⟩ : Fin 9) = i := by
    apply Fin.ext
    simp
  unfold markAt
  rw [dif_pos hr]
  simp only [hidx]
  rfl

theorem markAt_outOfRange (s : Session) (player : Int) (position : Int)
    (h : ¬ (0 ≤ position ∧ position < 9)) :
    markAt s player position = .error (.outOfBounds position) := by
  unfold markAt
  rw [dif_neg h]

@[simp] theorem placed_gameBoard (s : Session) (player : Int) (i : Fin 9) :
    (placed s player i).gameBoard = Function.update s.gameBoard i player := by
  simp [placed, swapPlayer]

@[simp] theorem placed_countMarks (s : Session) (player : Int) (i : Fin 9) :
    (placed s player i).countMarks = s.countMarks + 1 := by
  simp [placed, swapPlayer]

@[simp] theorem placed_currentPlayer (s : Session) (player : Int) (i : Fin 9) :
    (placed s player i).currentPlayer =
      if s.currentPlayer = MARK_O then MARK_X else MARK_O := by
  simp [placed, swapPlayer]

/-- C3: `markAt` at a position in `0..8` whose cell is not `NO_MARK` returns the session
it was given: no cell, and neither `countMarks`, `currentPlayer`, `gameResult` nor
`message`, changes. -/
theorem markAt_occupied (s : Session) (player : Int) (i : Fin 9)
    (hocc : s.gameBoard i ≠ NO_MARK) :
    markAt s player (i.val : Int) = .ok s := by
  rw [markAt_inRange, if_pos hocc]

/-- C4: with `currentPlayer` a mark, `markAt(currentPlayer, position)` at an empty cell in
`0..8` returns a session where that cell holds the mark that was active, the other 8
cells are as before, `countMarks` is one more and `currentPlayer` is the other mark. -/
theorem markAt_empty (s : Session) (i : Fin 9)
    (hplayer : s.currentPlayer = MARK_X ∨ s.currentPlayer = MARK_O)
    (hempty : s.gameBoard i = NO_MARK) :
    ∃ t, markAt s s.currentPlayer (i.val : Int) = .ok t ∧
      t.gameBoard i = s.currentPlayer ∧
      (∀ j, j ≠ i → t.gameBoard j = s.gameBoard j) ∧
      t.countMarks = s.countMarks + 1 ∧
      t.currentPlayer = otherMark s.currentPlayer := by
  refine ⟨placed s s.currentPlayer i, ?_, ?_, ?_, ?_, ?_⟩
  · rw [markAt_inRange, if_neg (by simpa using hempty)]
  · simp
  · intro j hj
    simp [Function.update_noteq hj]
  · simp
  · rw [placed_currentPlayer]
    rcases hplayer with h | h <;> rw [h] <;> decide

/-- C3 at `midGame`: cell 0 holds `MARK_X`, and `markAt(MARK_O, 0)` returns `midGame`. -/
theorem markAt_occupied_witness :
    midGame.gameBoard 0 ≠ NO_MARK ∧
      markAt midGame MARK_O (((0 : Fin 9).val : Nat) : Int) = .ok midGame :=
  ⟨by decide, markAt_occupied midGame MARK_O 0 (by decide)⟩

/-- C4 at `midGame`: `MARK_O` is active and cell 2 is empty. -/
theorem markAt_empty_witness :
    ∃ t, markAt midGame midGame.currentPlayer (((2 : Fin 9).val : Nat) : Int) = .ok t ∧
      t.gameBoard 2 = midGame.currentPlayer ∧
      (∀ j, j ≠ 2 → t.gameBoard j = midGame.gameBoard j) ∧
      t.countMarks = midGame.countMarks + 1 ∧
      t.currentPlayer = otherMark midGame.currentPlayer :=
  markAt_empty midGame 2 (Or.inr (by decide)) (by decide)

/-! ## Turn alternation -/

theorem getRandomPlayer_mark (env : Env) :
    getRandomPlayer env = MARK_X ∨ getRandomPlayer env = MARK_O := by
  unfold getRandomPlayer
  split_ifs
  · exact Or.inl rfl
  · exact Or.inr rfl

theorem otherMark_otherMark (m : Int) (hm : m = MARK_X ∨ m = MARK_O) :
    otherMark (otherMark m) = m := by
  rcases hm with rfl | rfl <;> decide

theorem otherMark_mark (m : Int) :
    otherMark m = MARK_X ∨ otherMark m = MARK_O := by
  unfold otherMark
  split_ifs
  · exact Or.inr rfl
  · exact Or.inl rfl

theorem placed_currentPlayer_other (s : Session) (player : Int) (i : Fin 9)
    (hm : s.currentPlayer = MARK_X ∨ s.currentPlayer = MARK_O) :
    (placed s player i).currentPlayer = otherMark s.currentPlayer := by
  rw [placed_currentPlayer]
  rcases hm with h | h <;> rw [h] <;> decide

theorem accepted_inRange (s : Session) (i : Fin 9) :
    accepted s (i.val : Int) = decide (s.gameBoard i = NO_MARK) := by
  have hi := i.isLt
  have hr : (0 : Int) ≤ (i.val : Int) ∧ (i.val : Int) < 9 := by omega
  have hidx : (⟨((i.val : Int)).toNat, by omega⟩ : Fin 9) = i := by
    apply Fin.ext
    simp
  unfold accepted
  rw [dif_pos hr]
  simp only [hidx]

/-- Every position in `0..8` is the value of an index of the board. -/
theorem exists_index (position : Int) (h : 0 ≤ position ∧ position < 9) :
    ∃ i : Fin 9, position = (i.val : Int) :=
  ⟨⟨position.toNat, by omega⟩, by simp [Int.toNat_of_nonneg h.1]⟩

/-- A run of in-range `markAt` calls returns, and the active mark is the one it started
with after an even number of accepted placements, the other one after an odd number. -/
theorem markSeq_parity (calls : List (Int × Int)) :
    ∀ s : Session, (s.currentPlayer = MARK_X ∨ s.currentPlayer = MARK_O) →
      (∀ c ∈ calls, 0 ≤ c.2 ∧ c.2 < 9) →
      ∃ t n, markSeq s calls = .ok (t, n) ∧
        t.currentPlayer = if n % 2 = 0 then s.currentPlayer else otherMark s.currentPlayer := by
  induction calls with
  | nil =>
    intro s _ _
    exact ⟨s, 0, rfl, by simp⟩
  | cons c rest ih =>
    intro s hm hrange
    obtain ⟨player, position⟩ := c
    obtain ⟨i, rfl⟩ := exists_index position (hrange (player, position) (List.mem_cons_self _ _))
    have hrest : ∀ c ∈ rest, 0 ≤ c.2 ∧ c.2 < 9 :=
      fun c hc => hrange c (List.mem_cons_of_mem _ hc)
    by_cases hocc : s.gameBoard i = NO_MARK
    · obtain ⟨t, n, hrun, hcur⟩ := ih (placed s player i)
        (by rw [placed_currentPlayer_other s player i hm]; exact otherMark_mark _) hrest
      refine ⟨t, n + 1, ?_, ?_⟩
      · simp only [markSeq, markAt_inRange, accepted_inRange, hocc, ne_eq, not_true_eq_false,
          if_false, hrun, decide_True, if_true]
      · rw [hcur, placed_currentPlayer_other s player i hm, otherMark_otherMark _ hm]
        rcases Nat.mod_two_eq_zero_or_one n with h | h
        · have h1 : (n + 1) % 2 = 1 := by omega
          simp [h, h1]
        · have h1 : (n + 1) % 2 = 0 := by omega
          simp [h, h1]
    · obtain ⟨t, n, hrun, hcur⟩ := ih s hm hrest
      refine ⟨t, n, ?_, hcur⟩
      simp only [markSeq, markAt_inRange, accepted_inRange, hocc, ne_eq, not_false_eq_true,
        if_true, hrun, decide_False, Bool.false_eq_true, if_false, Nat.add_zero]

theorem resetGame_currentPlayer (env : Env) (s0 : Session) :
    (resetGame env s0).currentPlayer = getRandomPlayer env := rfl

/-- C5: from the session `resetGame` leaves, with active mark `p`, every run of `markAt`
calls at positions in `0..8` returns, and with `N` the number of accepted placements
among them (the rest being rejected) `currentPlayer` is `p` when `N` is even and the
other mark when `N` is odd. -/
theorem currentPlayer_parity (env : Env) (s0 : Session) (calls : List (Int × Int))
    (hrange : ∀ c ∈ calls, 0 ≤ c.2 ∧ c.2 < 9) :
    ∃ t N, markSeq (resetGame env s0) calls = .ok (t, N) ∧
      t.currentPlayer =
        if N % 2 = 0 then (resetGame env s0).currentPlayer
        else otherMark (resetGame env s0).currentPlayer :=
  markSeq_parity calls (resetGame env s0)
    (by rw [resetGame_currentPlayer]; exact getRandomPlayer_mark env) hrange

/-- C5 on a run of four calls, three accepted and one on an occupied cell. -/
theorem currentPlayer_parity_witness :
    ∃ t N, markSeq (resetGame ⟨0, 0⟩ initial)
        [(MARK_X, 4), (MARK_O, 4), (MARK_O, 0), (MARK_X, 8)] = .ok (t, N) ∧
      t.currentPlayer =
        if N % 2 = 0 then (resetGame ⟨0, 0⟩ initial).currentPlayer
        else otherMark (resetGame ⟨0, 0⟩ initial).currentPlayer :=
  currentPlayer_parity ⟨0, 0⟩ initial [(MARK_X, 4), (MARK_O, 4), (MARK_O, 0), (MARK_X, 8)]
    (by decide)

/-! ## Counting cells -/

/-- Counting the cells of a board that satisfy `q`, after writing `p` to a cell that did
not satisfy `q`. -/
theorem countP_update (b : Board) (i : Fin 9) (p : Int) (q : Int → Bool)
    (hq : q (b i) = false) (l : List (Fin 9)) (hl : l.Nodup) :
    l.countP (fun j => q (Function.update b i p j)) =
      l.countP (fun j => q (b j)) + (if i ∈ l ∧ q p = true then 1 else 0) := by
  induction l with
  | nil => simp
  | cons a rest ih =>
    rw [List.nodup_cons] at hl
    have ih1 := ih hl.2
    rw [List.countP_cons, List.countP_cons, ih1]
    by_cases hai : a = i
    · subst hai
      have hnot : ¬ (a ∈ rest ∧ q p = true) := fun h => hl.1 h.1
      simp only [Function.update_same, hq, List.mem_cons, true_or, true_and, if_neg hnot]
      simp
    · have hia : i ≠ a := fun h => hai h.symm
      simp only [Function.update_noteq hai, List.mem_cons, hia, false_or]
      omega

theorem countMark_update (b : Board) (i : Fin 9) (p m : Int) (hempty : b i = NO_MARK)
    (hm : m ≠ NO_MARK) :
    countMark (Function.update b i p) m = countMark b m + (if p = m then 1 else 0) := by
  have h := countP_update b i p (fun v => decide (v = m))
    (by simp only [hempty, decide_eq_false_iff_not]; exact fun h => hm h.symm)
    (List.finRange 9) (List.nodup_finRange 9)
  simp only [List.mem_finRange, true_and, decide_eq_true_eq] at h
  exact h

theorem resetGame_gameBoard (env : Env) (s0 : Session) (i : Fin 9) :
    (resetGame env s0).gameBoard i = NO_MARK := by
  simp only [resetGame, finRange_nine, List.foldl]
  fin_cases i <;> simp [Function.update]

theorem countMark_resetGame (env : Env) (s0 : Session) (m : Int) (hm : m ≠ NO_MARK) :
    countMark (resetGame env s0).gameBoard m = 0 := by
  unfold countMark
  rw [List.countP_eq_zero]
  intro i _
  simp only [resetGame_gameBoard, decide_eq_true_eq]
  exact fun h => hm h.symm

/-! ## One polled event -/

/-- What one polled event can do to a session: leave the game fields alone (it may move
the hovered or the armed cell), reset the round (left release in RoundOver), or place
the active mark at the hovered cell (left release in Playing on the armed cell, the
cell being in `0..8` and empty). -/
theorem handleEvent_cases (env : Env) (s t : Session) (event : Event)
    (h : handleEvent env s event = .ok t) :
    (t.gameBoard = s.gameBoard ∧ t.countMarks = s.countMarks ∧
      t.currentPlayer = s.currentPlayer ∧ t.message = s.message ∧
      t.gameResult = s.gameResult) ∨
    (s.message ≠ NO_MESSAGE ∧ event = .mouseButtonUp SDL_BUTTON_LEFT ∧
      t = resetGame env s) ∨
    (s.message = NO_MESSAGE ∧ event = .mouseButtonUp SDL_BUTTON_LEFT ∧
      ∃ i : Fin 9, s.currentPosition = (i.val : Int) ∧ s.pressedRect = s.currentPosition ∧
        s.gameBoard i = NO_MARK ∧ t = placed s s.currentPlayer i) := by
  unfold handleEvent at h
  by_cases hq : event = .quit
  · rw [if_pos hq] at h
    cases h
  rw [if_neg hq] at h
  by_cases hmsg : s.message ≠ NO_MESSAGE
  · rw [if_pos hmsg] at h
    cases event with
    | mouseButtonUp button =>
      by_cases hb : button = SDL_BUTTON_LEFT
      · simp only [hb, if_true] at h
        cases h
        exact Or.inr (Or.inl ⟨hmsg, by rw [hb], rfl⟩)
      · simp only [hb, if_false] at h
        cases h
        exact Or.inl ⟨rfl, rfl, rfl, rfl, rfl⟩
    | quit => exact absurd rfl hq
    | mouseMotion x y => cases h; exact Or.inl ⟨rfl, rfl, rfl, rfl, rfl⟩
    | mouseButtonDown button => cases h; exact Or.inl ⟨rfl, rfl, rfl, rfl, rfl⟩
    | other => cases h; exact Or.inl ⟨rfl, rfl, rfl, rfl, rfl⟩
  · rw [if_neg hmsg] at h
    have hplaying : s.message = NO_MESSAGE := not_not.mp hmsg
    cases event with
    | quit => exact absurd rfl hq
    | other => cases h; exact Or.inl ⟨rfl, rfl, rfl, rfl, rfl⟩
    | mouseMotion x y =>
      simp only at h
      cases hhit : hitRect s.rects x y with
      | none => rw [hhit] at h; cases h; exact Or.inl ⟨rfl, rfl, rfl, rfl, rfl⟩
      | some i => rw [hhit] at h; cases h; exact Or.inl ⟨rfl, rfl, rfl, rfl, rfl⟩
    | mouseButtonDown button =>
      simp only at h
      split_ifs at h <;> cases h <;> exact Or.inl ⟨rfl, rfl, rfl, rfl, rfl⟩
    | mouseButtonUp button =>
      simp only at h
      by_cases hb : button = SDL_BUTTON_LEFT
      swap
      · rw [if_neg hb] at h
        cases h
        exact Or.inl ⟨rfl, rfl, rfl, rfl, rfl⟩
      rw [if_pos hb] at h
      by_cases harm : s.pressedRect = s.currentPosition
      swap
      · rw [if_neg harm] at h
        cases h
        exact Or.inl ⟨rfl, rfl, rfl, rfl, rfl⟩
      rw [if_pos harm] at h
      by_cases hr : 0 ≤ s.currentPosition ∧ s.currentPosition < 9
      swap
      · rw [markAt_outOfRange _ _ _ hr] at h
        cases h
      obtain ⟨i, hi⟩ := exists_index _ hr
      rw [hi, markAt_inRange] at h
      by_cases hocc : s.gameBoard i = NO_MARK
      · rw [if_neg (not_not.mpr hocc)] at h
        cases h
        exact Or.inr (Or.inr ⟨hplaying, by rw [hb], i, hi, harm, hocc, rfl⟩)
      · rw [if_pos hocc] at h
        cases h
        exact Or.inl ⟨rfl, rfl, rfl, rfl, rfl⟩

/-! ## Balance of the two marks -/

theorem turnInvariant_resetGame (env : Env) (s0 : Session) :
    turnInvariant (resetGame env s0) := by
  refine ⟨getRandomPlayer_mark env, Or.inl ?_⟩
  rw [countMark_resetGame _ _ _ (by decide), countMark_resetGame _ _ _ (by decide)]

theorem turnInvariant_placed (s : Session) (i : Fin 9) (hinv : turnInvariant s)
    (hempty : s.gameBoard i = NO_MARK) : turnInvariant (placed s s.currentPlayer i) := by
  obtain ⟨hm, hbal⟩ := hinv
  unfold turnInvariant
  rw [placed_currentPlayer_other s _ i hm, placed_gameBoard,
    countMark_update _ _ _ _ hempty (by decide), countMark_update _ _ _ _ hempty (by decide)]
  refine ⟨otherMark_mark _, ?_⟩
  rcases hm with h | h
  · rw [h] at hbal ⊢
    simp only [MARK_X, MARK_O, otherMark] at hbal ⊢
    simp only [if_true, show ¬ ((-1 : Int) = 1) by decide, if_false, and_true, and_false,
      or_false, false_or, show ¬ ((1 : Int) = -1) by decide] at hbal ⊢
    omega
  · rw [h] at hbal ⊢
    simp only [MARK_X, MARK_O, otherMark] at hbal ⊢
    simp only [if_true, show ¬ ((1 : Int) = -1) by decide, if_false, and_true, and_false,
      or_false, false_or, show ¬ ((-1 : Int) = 1) by decide] at hbal ⊢
    omega

theorem turnInvariant_handleEvent (env : Env) (s t : Session) (event : Event)
    (hinv : turnInvariant s) (h : handleEvent env s event = .ok t) : turnInvariant t := by
  rcases handleEvent_cases env s t event h with ⟨hb, _, hp, _, _⟩ | ⟨_, _, rfl⟩ |
    ⟨_, _, i, _, _, hempty, rfl⟩
  · unfold turnInvariant at hinv ⊢
    rw [hb, hp]
    exact hinv
  · exact turnInvariant_resetGame env s
  · exact turnInvariant_placed s i hinv hempty

theorem turnInvariant_handleEvents (events : List (Env × Event)) :
    ∀ s t : Session, turnInvariant s → handleEvents s events = .ok t → turnInvariant t := by
  induction events with
  | nil =>
    intro s t hinv h
    cases h
    exact hinv
  | cons e rest ih =>
    intro s t hinv h
    obtain ⟨env, event⟩ := e
    simp only [handleEvents] at h
    cases hstep : handleEvent env s event with
    | error e => rw [hstep] at h; cases h
    | ok s1 =>
      rw [hstep] at h
      exact ih s1 t (turnInvariant_handleEvent env s s1 event hinv hstep) h

theorem turnInvariant_reachable (s : Session) (h : Reachable s) : turnInvariant s := by
  induction h with
  | reset env s0 => exact turnInvariant_resetGame env s0
  | frame events _ hrun ih =>
    exact turnInvariant_handleEvents events _ _ (by exact ih) hrun

/-- C6: in every session reachable from a `resetGame` session through frames of
`handleInput` that return (every placement at a cell in `0..8`), the number of `MARK_X`
cells and the number of `MARK_O` cells differ by at most 1. -/
theorem marks_balanced (s : Session) (h : Reachable s) :
    countMark s.gameBoard MARK_X ≤ countMark s.gameBoard MARK_O + 1 ∧
      countMark s.gameBoard MARK_O ≤ countMark s.gameBoard MARK_X + 1 := by
  obtain ⟨_, hbal⟩ := turnInvariant_reachable s h
  omega

theorem ok_sessionOf (r : Except Halt Session) (h : returned r = true) :
    r = .ok (sessionOf r) := by
  cases r with
  | ok t => rfl
  | error e => cases h

theorem firstClick_run :
    handleInput (setup ⟨0, 0⟩ initial) (click 10 10) = .ok firstClick :=
  ok_sessionOf _ (by decide!)

/-- C6 at the session after `setup` and one frame with a click on cell 0: one `MARK_X`,
no `MARK_O`. -/
theorem marks_balanced_witness :
    countMark firstClick.gameBoard MARK_X ≤ countMark firstClick.gameBoard MARK_O + 1 ∧
      countMark firstClick.gameBoard MARK_O ≤ countMark firstClick.gameBoard MARK_X + 1 :=
  marks_balanced firstClick
    (Reachable.frame (click 10 10) (Reachable.reset ⟨0, 0⟩ _) firstClick_run)

/-! ## Pointer and cells -/

/-- The rectangles of `setup`: cell `i` is the square of side 166 at column `i % 3`,
row `i / 3`. -/
theorem setupRects_apply (r0 : Fin 9 → SDL_Rect) (i : Fin 9) :
    setupRects r0 i =
      { x := 166 * ((i.val % 3 : Nat) : Int), y := 166 * ((i.val / 3 : Nat) : Int),
        w := 166, h := 166 } := by
  fin_cases i <;> rfl

/-- A point inside the rectangle of cell 6 is in none of the rectangles before it. -/
theorem hitRect_six (r0 : Fin 9 → SDL_Rect) (x y : Int)
    (h : pointInRect x y (setupRects r0 6) = true) :
    hitRect (setupRects r0) x y = some 6 := by
  have e6 : setupRects r0 6 = { x := 0, y := 332, w := 166, h := 166 } := rfl
  have hy : y ≥ 332 := by
    rw [e6] at h
    simp only [pointInRect, Bool.and_eq_true, decide_eq_true_eq] at h
    exact h.1.2
  have hlt : ∀ i : Fin 9, i.val < 6 → ¬ (pointInRect x y (setupRects r0 i) = true) := by
    intro i hi hin
    simp only [pointInRect, setupRects_apply, Bool.and_eq_true, decide_eq_true_eq] at hin
    have h2 : (i.val / 3 : Nat) ≤ 1 := by omega
    have h3 : (((i.val / 3 : Nat) : Int)) ≤ 1 := by exact_mod_cast h2
    omega
  have key : ∀ p : Fin 9 → Bool, (∀ i : Fin 9, i.val < 6 → ¬ (p i = true)) → p 6 = true →
      List.find? p [0, 1, 2, 3, 4, 5, 6, 7, 8] = some 6 := by
    intro p hl h6
    rw [List.find?_cons_of_neg _ (hl 0 (by decide)), List.find?_cons_of_neg _ (hl 1 (by decide)),
      List.find?_cons_of_neg _ (hl 2 (by decide)), List.find?_cons_of_neg _ (hl 3 (by decide)),
      List.find?_cons_of_neg _ (hl 4 (by decide)), List.find?_cons_of_neg _ (hl 5 (by decide)),
      List.find?_cons_of_pos _ h6]
  unfold hitRect
  rw [finRange_nine]
  exact key _ hlt h

/-! ## Drag off the armed cell -/

/-- C7: in Playing (`message == NO_MESSAGE`), a left-button release while the armed cell
`pressedRect` differs from the hovered cell `currentPosition` returns the session
unchanged (board, `countMarks`, `currentPlayer` and all the rest); and with the
rectangles of `setup`, a frame of left press over cell 3, pointer move into cell 6 and
left release leaves the board, `countMarks` and `currentPlayer` as they were, so no
mark goes to cell 3 or cell 6. -/
theorem drag_cancel (s : Session) (hplaying : s.message = NO_MESSAGE) :
    (∀ env : Env, s.pressedRect ≠ s.currentPosition →
      handleEvent env s (.mouseButtonUp SDL_BUTTON_LEFT) = .ok s) ∧
    (∀ (e1 e2 e3 : Env) (x y : Int) (r0 : Fin 9 → SDL_Rect),
      s.rects = setupRects r0 → s.currentPosition = 3 →
      pointInRect x y (s.rects 6) = true →
      ∃ t, handleInput s [(e1, .mouseButtonDown SDL_BUTTON_LEFT), (e2, .mouseMotion x y),
          (e3, .mouseButtonUp SDL_BUTTON_LEFT)] = .ok t ∧
        t.gameBoard = s.gameBoard ∧ t.countMarks = s.countMarks ∧
        t.currentPlayer = s.currentPlayer ∧ t.message = s.message ∧
        t.pressedRect = 3 ∧ t.currentPosition = 6) := by
  constructor
  · intro env hne
    simp [handleEvent, hplaying, hne]
  · intro e1 e2 e3 x y r0 hrects hpos hin
    rw [hrects] at hin
    have hhit := hitRect_six r0 x y hin
    let t : Session :=
      { s with
        lastPosition := s.currentPosition
        pressedRect := s.currentPosition
        currentPosition := 6 }
    refine ⟨t, ?_, rfl, rfl, rfl, rfl, hpos, rfl⟩
    have hne : ¬ ((3 : Int) = (((6 : Fin 9) : Nat) : Int)) := by decide
    simp [handleInput, handleEvents, handleEvent, hplaying, hrects, hhit, hpos, hne, t]
    rfl

/-- C7 at `midGame`: cell 4 is armed, cell 3 is hovered, and the release changes
nothing; nor does the frame press, move to `(10, 400)` in cell 6, release. -/
theorem drag_cancel_witness :
    handleEvent ⟨0, 0⟩ midGame (.mouseButtonUp SDL_BUTTON_LEFT) = .ok midGame ∧
    ∃ t, handleInput midGame [(⟨0, 0⟩, .mouseButtonDown SDL_BUTTON_LEFT),
        (⟨0, 0⟩, .mouseMotion 10 400), (⟨0, 0⟩, .mouseButtonUp SDL_BUTTON_LEFT)] = .ok t ∧
      t.gameBoard = midGame.gameBoard ∧ t.countMarks = midGame.countMarks ∧
      t.currentPlayer = midGame.currentPlayer ∧ t.message = midGame.message ∧
      t.pressedRect = 3 ∧ t.currentPosition = 6 :=
  ⟨(drag_cancel midGame rfl).1 ⟨0, 0⟩ (by decide),
   (drag_cancel midGame rfl).2 ⟨0, 0⟩ ⟨0, 0⟩ ⟨0, 0⟩ 10 400 initial.rects rfl rfl (by decide)⟩

/-! ## Commits in one frame -/

theorem diffCells_update (b : Board) (i : Fin 9) (p : Int) :
    diffCells b (Function.update b i p) ≤ 1 := by
  unfold diffCells
  have hmono : (List.finRange 9).countP (fun j => decide (b j ≠ Function.update b i p j)) ≤
      (List.finRange 9).countP (fun j => j == i) := by
    apply List.countP_mono_left
    intro j _ hj
    by_cases hji : j = i
    · simp [hji]
    · simp [Function.update_noteq hji] at hj
  have hone : (List.finRange 9).countP (fun j => j == i) ≤ 1 := by
    rw [← List.count_eq_countP]
    exact List.nodup_iff_count_le_one.mp (List.nodup_finRange 9) i
  omega

theorem diffCells_self (b : Board) : diffCells b b = 0 := by
  simp [diffCells]

theorem leftUps_cons (env : Env) (event : Event) (rest : List (Env × Event)) :
    leftUps ((env, event) :: rest) =
      leftUps rest + (if event = .mouseButtonUp SDL_BUTTON_LEFT then 1 else 0) := by
  simp [leftUps, List.countP_cons]

/-- Events other than a left release leave board, `countMarks` and `message` alone. -/
theorem handleEvents_no_release (events : List (Env × Event)) :
    ∀ s t : Session, leftUps events = 0 → handleEvents s events = .ok t →
      t.gameBoard = s.gameBoard ∧ t.countMarks = s.countMarks ∧ t.message = s.message := by
  induction events with
  | nil =>
    intro s t _ h
    cases h
    exact ⟨rfl, rfl, rfl⟩
  | cons e rest ih =>
    intro s t hups h
    obtain ⟨env, event⟩ := e
    rw [leftUps_cons] at hups
    have hne : event ≠ .mouseButtonUp SDL_BUTTON_LEFT := by
      intro he
      rw [if_pos he] at hups
      omega
    simp only [handleEvents] at h
    cases hstep : handleEvent env s event with
    | error e => rw [hstep] at h; cases h
    | ok s1 =>
      rw [hstep] at h
      obtain ⟨hb, hc, hm⟩ := ih s1 t (by omega) h
      rcases handleEvent_cases env s s1 event hstep with ⟨hb1, hc1, _, hm1, _⟩ |
        ⟨_, he, _⟩ | ⟨_, he, _⟩
      · exact ⟨hb.trans hb1, hc.trans hc1, hm.trans hm1⟩
      · exact absurd he hne
      · exact absurd he hne

theorem handleEvents_one_release (events : List (Env × Event)) :
    ∀ s t : Session, s.message = NO_MESSAGE → leftUps events ≤ 1 →
      handleEvents s events = .ok t →
      diffCells s.gameBoard t.gameBoard ≤ 1 ∧
        s.countMarks ≤ t.countMarks ∧ t.countMarks ≤ s.countMarks + 1 := by
  induction events with
  | nil =>
    intro s t _ _ h
    cases h
    rw [diffCells_self]
    omega
  | cons e rest ih =>
    intro s t hplaying hups h
    obtain ⟨env, event⟩ := e
    rw [leftUps_cons] at hups
    simp only [handleEvents] at h
    cases hstep : handleEvent env s event with
    | error e => rw [hstep] at h; cases h
    | ok s1 =>
      rw [hstep] at h
      rcases handleEvent_cases env s s1 event hstep with ⟨hb1, hc1, _, hm1, _⟩ |
        ⟨hover, _, _⟩ | ⟨_, he, i, _, _, _, rfl⟩
      · have hrec := ih s1 t (hm1.trans hplaying) (by omega) h
        rw [hb1, hc1] at hrec
        exact hrec
      · exact absurd hplaying hover
      · rw [if_pos he] at hups
        obtain ⟨hb, hc, _⟩ := handleEvents_no_release rest _ t (by omega) h
        rw [hb, hc, placed_gameBoard, placed_countMarks]
        exact ⟨diffCells_update _ _ _, by omega, by omega⟩

/-- C8 fails for a frame with two clicks, and for a release in RoundOver: after `setup`,
one call of `handleInput` on the events of two clicks (cells 0 and 1) commits two
placements, so two cells differ and `countMarks` grows by 2; and from a finished round
one left release clears the five marks of the board. -/
theorem two_commits_in_one_frame :
    (∃ t, handleInput (setup ⟨0, 0⟩ initial) twoClicks = .ok t ∧
      diffCells (setup ⟨0, 0⟩ initial).gameBoard t.gameBoard = 2 ∧
      t.countMarks = (setup ⟨0, 0⟩ initial).countMarks + 2) ∧
    (wonRound.message = X_WIN_MESSAGE ∧
      ∃ t, handleInput wonRound [(⟨0, 0⟩, .mouseButtonUp SDL_BUTTON_LEFT)] = .ok t ∧
        diffCells wonRound.gameBoard t.gameBoard = 5) :=
  ⟨⟨sessionOf (handleInput (setup ⟨0, 0⟩ initial) twoClicks), ok_sessionOf _ (by decide!),
     by decide!, by decide!⟩,
   by decide!,
   ⟨sessionOf (handleInput wonRound [(⟨0, 0⟩, .mouseButtonUp SDL_BUTTON_LEFT)]),
     ok_sessionOf _ (by decide!), by decide!⟩⟩

/-- An event that is neither `SDL_QUIT` nor a left-button release is handled and the
loop goes on: `message` is as before, and a hovered cell in `0..8` stays in `0..8`. -/
theorem handleEvent_returns (env : Env) (s : Session) (event : Event)
    (hquit : event ≠ .quit) (hrelease : event ≠ .mouseButtonUp SDL_BUTTON_LEFT) :
    ∃ t, handleEvent env s event = .ok t ∧ t.message = s.message ∧
      (0 ≤ s.currentPosition ∧ s.currentPosition < 9 →
        0 ≤ t.currentPosition ∧ t.currentPosition < 9) := by
  unfold handleEvent
  rw [if_neg hquit]
  by_cases hmsg : s.message ≠ NO_MESSAGE
  · rw [if_pos hmsg]
    cases event with
    | quit => exact absurd rfl hquit
    | mouseMotion x y => exact ⟨s, rfl, rfl, id⟩
    | mouseButtonDown button => exact ⟨s, rfl, rfl, id⟩
    | other => exact ⟨s, rfl, rfl, id⟩
    | mouseButtonUp button =>
      have hb : button ≠ SDL_BUTTON_LEFT := fun h => hrelease (by rw [h])
      simp only [hb, if_false]
      exact ⟨s, rfl, rfl, id⟩
  · rw [if_neg hmsg]
    cases event with
    | quit => exact absurd rfl hquit
    | other => exact ⟨s, rfl, rfl, id⟩
    | mouseMotion x y =>
      simp only
      cases hitRect s.rects x y with
      | none => exact ⟨s, rfl, rfl, id⟩
      | some i =>
        refine ⟨_, rfl, rfl, fun _ => ?_⟩
        have := i.isLt
        simp only
        omega
    | mouseButtonDown button =>
      simp only
      split_ifs
      · exact ⟨_, rfl, rfl, id⟩
      · exact ⟨s, rfl, rfl, id⟩
    | mouseButtonUp button =>
      have hb : button ≠ SDL_BUTTON_LEFT := fun h => hrelease (by rw [h])
      simp only [hb, if_false]
      exact ⟨s, rfl, rfl, id⟩

/-- A left-button release in Playing with the hovered cell in `0..8` is handled: the
call of `markAt`, if any, is at a cell of the board. -/
theorem handleEvent_release_returns (env : Env) (s : Session)
    (hplaying : s.message = NO_MESSAGE)
    (hhover : 0 ≤ s.currentPosition ∧ s.currentPosition < 9) :
    ∃ t, handleEvent env s (.mouseButtonUp SDL_BUTTON_LEFT) = .ok t := by
  unfold handleEvent
  rw [if_neg (by decide), if_neg (not_not.mpr hplaying)]
  simp only [if_true]
  by_cases harm : s.pressedRect = s.currentPosition
  · rw [if_pos harm]
    obtain ⟨i, hi⟩ := exists_index _ hhover
    rw [hi, markAt_inRange]
    split_ifs
    · exact ⟨_, rfl⟩
    · exact ⟨_, rfl⟩
  · rw [if_neg harm]
    exact ⟨_, rfl⟩

/-- A list of events without `SDL_QUIT` and without a left-button release is drained. -/
theorem handleEvents_returns_no_release (events : List (Env × Event)) :
    ∀ s : Session, leftUps events = 0 → (∀ p ∈ events, p.2 ≠ Event.quit) →
      ∃ t, handleEvents s events = .ok t := by
  induction events with
  | nil => intro s _ _; exact ⟨s, rfl⟩
  | cons e rest ih =>
    intro s hups hquit
    obtain ⟨env, event⟩ := e
    rw [leftUps_cons] at hups
    have hne : event ≠ .mouseButtonUp SDL_BUTTON_LEFT := by
      intro he
      rw [if_pos he] at hups
      omega
    obtain ⟨s1, hstep, _, _⟩ := handleEvent_returns env s event
      (hquit (env, event) (List.mem_cons_self _ _)) hne
    obtain ⟨t, ht⟩ := ih s1 (by omega) (fun p hp => hquit p (List.mem_cons_of_mem _ hp))
    refine ⟨t, ?_⟩
    simp only [handleEvents, hstep]
    exact ht

/-- From Playing with the hovered cell in `0..8`, a list of events without `SDL_QUIT`
and with at most one left-button release is drained. -/
theorem handleEvents_returns (events : List (Env × Event)) :
    ∀ s : Session, s.message = NO_MESSAGE →
      (0 ≤ s.currentPosition ∧ s.currentPosition < 9) → leftUps events ≤ 1 →
      (∀ p ∈ events, p.2 ≠ Event.quit) → ∃ t, handleEvents s events = .ok t := by
  induction events with
  | nil => intro s _ _ _ _; exact ⟨s, rfl⟩
  | cons e rest ih =>
    intro s hplaying hhover hups hquit
    obtain ⟨env, event⟩ := e
    rw [leftUps_cons] at hups
    have hquit2 : ∀ p ∈ rest, p.2 ≠ Event.quit :=
      fun p hp => hquit p (List.mem_cons_of_mem _ hp)
    by_cases he : event = .mouseButtonUp SDL_BUTTON_LEFT
    · rw [if_pos he] at hups
      obtain ⟨s1, hstep⟩ := handleEvent_release_returns env s hplaying hhover
      obtain ⟨t, ht⟩ := handleEvents_returns_no_release rest s1 (by omega) hquit2
      refine ⟨t, ?_⟩
      simp only [handleEvents, he, hstep]
      exact ht
    · rw [if_neg he] at hups
      obtain ⟨s1, hstep, hm, hpos⟩ := handleEvent_returns env s event
        (hquit (env, event) (List.mem_cons_self _ _)) he
      obtain ⟨t, ht⟩ := ih s1 (hm.trans hplaying) (hpos hhover) (by omega) hquit2
      refine ⟨t, ?_⟩
      simp only [handleEvents, hstep]
      exact ht

/-- C8, amended: take a call of `handleInput` that starts in Playing (`message ==
NO_MESSAGE`) and drains a list of events with at most one left-button release.
Whenever the call returns (no `SDL_QUIT` is polled and the release does not call
`markAt` outside `0..8`), it has committed at most one placement: at most one board
cell differs after the call, and `countMarks` stays or grows by exactly 1.  And the
call does return when the list has no `SDL_QUIT` and the hovered cell is in `0..8`
when the call starts. -/
theorem one_commit_per_release (s : Session) (events : List (Env × Event))
    (hplaying : s.message = NO_MESSAGE) (hups : leftUps events ≤ 1) :
    (∀ t, handleInput s events = .ok t →
      diffCells s.gameBoard t.gameBoard ≤ 1 ∧
        s.countMarks ≤ t.countMarks ∧ t.countMarks ≤ s.countMarks + 1) ∧
    ((∀ p ∈ events, p.2 ≠ Event.quit) →
      0 ≤ s.currentPosition → s.currentPosition < 9 →
      ∃ t, handleInput s events = .ok t) :=
  ⟨fun t hrun =>
    handleEvents_one_release events { s with lastPosition := s.currentPosition } t
      hplaying hups hrun,
   fun hquit h0 h9 =>
    handleEvents_returns events { s with lastPosition := s.currentPosition }
      hplaying ⟨h0, h9⟩ hups hquit⟩

/-- C8, amended, at `midGame` (cell 3 hovered) with one click on the empty cell 2: the
call returns and one cell at most differs; and at the first frame after `setup` with
one click on cell 0. -/
theorem one_commit_per_release_witness :
    (∃ t, handleInput midGame (click 400 10) = .ok t ∧
      diffCells midGame.gameBoard t.gameBoard ≤ 1 ∧
      midGame.countMarks ≤ t.countMarks ∧ t.countMarks ≤ midGame.countMarks + 1) ∧
    (diffCells (setup ⟨0, 0⟩ initial).gameBoard firstClick.gameBoard ≤ 1 ∧
      (setup ⟨0, 0⟩ initial).countMarks ≤ firstClick.countMarks ∧
      firstClick.countMarks ≤ (setup ⟨0, 0⟩ initial).countMarks + 1) :=
  ⟨match (one_commit_per_release midGame (click 400 10) rfl (by decide)).2
      (by decide) (by decide) (by decide) with
    | ⟨t, ht⟩ =>
      ⟨t, ht, (one_commit_per_release midGame (click 400 10) rfl (by decide)).1 t ht⟩,
   (one_commit_per_release (setup ⟨0, 0⟩ initial) (click 10 10) rfl (by decide)).1
     firstClick firstClick_run⟩

theorem firstClick_values :
    firstClick.gameBoard 0 = MARK_X ∧ firstClick.countMarks = 1 ∧
      firstClick.currentPlayer = MARK_O ∧ firstClick.message = NO_MESSAGE := by
  decide!

theorem wonRound_values :
    (∀ i, wonRound.gameBoard i =
      ![MARK_X, MARK_X, MARK_X, MARK_O, MARK_O, NO_MARK, NO_MARK, NO_MARK, NO_MARK] i) ∧
      wonRound.countMarks = 5 ∧ wonRound.gameResult = WINNER_X := by
  decide!

/-! ## Startup -/

/-- `loadAssets` throws exactly when the last load, of `assets/message_draw.png`, fails:
each assignment to `error` overwrites the one before. -/
theorem loadAssets_error_iff (loadTexture : String → Option Texture) :
    (∃ what, loadAssets loadTexture = .error what) ↔
      loadTexture "assets/message_draw.png" = none := by
  unfold loadAssets
  cases h : loadTexture "assets/message_draw.png" with
  | none => simp
  | some t => simp

/-- C9 fails on the code: when `assets/board.png` fails to load and the other five
images load, `loadAssets` does not throw; it returns with a null `board` texture, and
`create` goes on to `setup` instead of leaving through `exit(-1)`. -/
theorem loadAssets_missing_board :
    missingBoard "assets/board.png" = none ∧
      (∃ assets, loadAssets missingBoard = .ok assets ∧ assets.board = none) ∧
      ∃ assets, create ⟨true, true, true, true, missingBoard⟩ ⟨0, 0⟩ initial =
        .ok (assets, setup ⟨0, 0⟩ initial) := by
  refine ⟨by decide, ?_⟩
  suffices hload : ∃ assets, loadAssets missingBoard = .ok assets ∧ assets.board = none by
    obtain ⟨assets, hok, hboard⟩ := hload
    refine ⟨⟨assets, hok, hboard⟩, assets, ?_⟩
    simp [create, hok]
  have h : ¬ ∃ what, loadAssets missingBoard = .error what := by
    rw [loadAssets_error_iff]
    decide
  cases hload : loadAssets missingBoard with
  | error what => exact absurd ⟨what, hload⟩ h
  | ok assets =>
    refine ⟨assets, rfl, ?_⟩
    unfold loadAssets at hload
    simp only [show (missingBoard "assets/message_draw.png").isNone = false by decide] at hload
    cases hload
    decide

/-! ## What the outcome depends on -/

theorem scanConditions_lineSums_indep (b : Board) (r r2 : Int) :
    scanConditions (lineSums b) r = scanConditions (lineSums b) r2 := by
  rw [scanConditions_lineSums, scanConditions_lineSums]

/-- C10 fails as stated: `fullBoard` and `fullBoardUncounted` have the same 9 cells (a
full board without a complete line) and differ in `countMarks` (9 and 0); `checkWinner`
leaves `DRAW` in the first and `IGNORE_RESULT` in the second. -/
theorem checkWinner_depends_on_countMarks :
    fullBoard.gameBoard = fullBoardUncounted.gameBoard ∧
      (checkWinner fullBoard).gameResult = DRAW ∧
      (checkWinner fullBoardUncounted).gameResult = IGNORE_RESULT :=
  ⟨rfl, by decide!, by decide!⟩

/-- C10, amended: for any two sessions whose 9 board cells are equal and whose
`countMarks` are equal, whatever their other fields (the previous `gameResult`
included), `checkWinner` produces the same `gameResult`; so it does for two sessions
with equal cells in each of which `countMarks` is the number of non-empty cells. -/
theorem checkWinner_board_and_count (s t : Session) (hboard : s.gameBoard = t.gameBoard) :
    (s.countMarks = t.countMarks →
      (checkWinner s).gameResult = (checkWinner t).gameResult) ∧
    (s.countMarks = (countNonEmpty s.gameBoard : Int) →
      t.countMarks = (countNonEmpty t.gameBoard : Int) →
      (checkWinner s).gameResult = (checkWinner t).gameResult) := by
  have key : s.countMarks = t.countMarks →
      (checkWinner s).gameResult = (checkWinner t).gameResult := by
    intro hcount
    rw [checkWinner_gameResult, checkWinner_gameResult, hboard, hcount,
      scanConditions_lineSums_indep t.gameBoard s.gameResult t.gameResult]
  refine ⟨key, fun hs ht => key ?_⟩
  rw [hs, ht, hboard]

/-- C10, amended, at `midGame` and `midGameOther`. -/
theorem checkWinner_board_and_count_witness :
    (checkWinner midGame).gameResult = (checkWinner midGameOther).gameResult :=
  (checkWinner_board_and_count midGame midGameOther rfl).1 rfl

/-! ## RoundOver -/

/-- C11: in RoundOver (`message != NO_MESSAGE`) every pointer-move event, every
pointer-down event and every pointer-up of a button other than the left one returns
the session it was given: board, `countMarks`, `currentPlayer`, `gameResult`,
`message`, `currentPosition` and `pressedRect` (and every other field) are unchanged. -/
theorem roundOver_ignores (env : Env) (s : Session) (hover : s.message ≠ NO_MESSAGE) :
    (∀ x y : Int, handleEvent env s (.mouseMotion x y) = .ok s) ∧
    (∀ button : Nat, handleEvent env s (.mouseButtonDown button) = .ok s) ∧
    (∀ button : Nat, button ≠ SDL_BUTTON_LEFT →
      handleEvent env s (.mouseButtonUp button) = .ok s) := by
  refine ⟨fun x y => ?_, fun button => ?_, fun button hb => ?_⟩
  · simp [handleEvent, hover]
  · simp [handleEvent, hover]
  · simp [handleEvent, hover, hb]

/-- C11 at `wonRound`, where the X-wins banner is up. -/
theorem roundOver_ignores_witness :
    (∀ x y : Int, handleEvent ⟨0, 0⟩ wonRound (.mouseMotion x y) = .ok wonRound) ∧
    (∀ button : Nat, handleEvent ⟨0, 0⟩ wonRound (.mouseButtonDown button) = .ok wonRound) ∧
    (∀ button : Nat, button ≠ SDL_BUTTON_LEFT →
      handleEvent ⟨0, 0⟩ wonRound (.mouseButtonUp button) = .ok wonRound) :=
  roundOver_ignores ⟨0, 0⟩ wonRound (by decide!)

/-- C12: in RoundOver (`message != NO_MESSAGE`) one left-button pointer-up returns a
session in which all 9 cells are `NO_MARK`, `countMarks` is 0, `gameResult` is
`IGNORE_RESULT`, `message` is `NO_MESSAGE` and `currentPlayer` is `MARK_X` or `MARK_O`. -/
theorem roundOver_release_resets (env : Env) (s : Session) (hover : s.message ≠ NO_MESSAGE) :
    ∃ t, handleEvent env s (.mouseButtonUp SDL_BUTTON_LEFT) = .ok t ∧
      (∀ i, t.gameBoard i = NO_MARK) ∧ t.countMarks = 0 ∧
      t.gameResult = IGNORE_RESULT ∧ t.message = NO_MESSAGE ∧
      (t.currentPlayer = MARK_X ∨ t.currentPlayer = MARK_O) := by
  refine ⟨resetGame env s, ?_, resetGame_gameBoard env s, rfl, rfl, rfl,
    getRandomPlayer_mark env⟩
  simp [handleEvent, hover]

/-- C12 at `wonRound`. -/
theorem roundOver_release_resets_witness :
    ∃ t, handleEvent ⟨1, 0⟩ wonRound (.mouseButtonUp SDL_BUTTON_LEFT) = .ok t ∧
      (∀ i, t.gameBoard i = NO_MARK) ∧ t.countMarks = 0 ∧
      t.gameResult = IGNORE_RESULT ∧ t.message = NO_MESSAGE ∧
      (t.currentPlayer = MARK_X ∨ t.currentPlayer = MARK_O) :=
  roundOver_release_resets ⟨1, 0⟩ wonRound (by decide!)

/-! ## Outcome and banner of a placement -/

theorem scanConditions_range_aux (l : List Int) :
    scanConditions l IGNORE_RESULT = WINNER_X ∨ scanConditions l IGNORE_RESULT = WINNER_O ∨
      scanConditions l IGNORE_RESULT = IGNORE_RESULT := by
  induction l with
  | nil => exact Or.inr (Or.inr rfl)
  | cons c cs ih =>
    rw [scanConditions_cons]
    split_ifs
    · exact Or.inl rfl
    · exact Or.inr (Or.inl rfl)
    · exact ih

theorem scanConditions_range (b : Board) (r : Int) :
    scanConditions (lineSums b) r = WINNER_X ∨ scanConditions (lineSums b) r = WINNER_O ∨
      scanConditions (lineSums b) r = IGNORE_RESULT := by
  rw [scanConditions_lineSums_indep b r IGNORE_RESULT]
  exact scanConditions_range_aux _

theorem checkWinner_outcome (s : Session) :
    (checkWinner s).gameResult = outcome s.gameBoard s.countMarks := by
  unfold outcome
  rw [checkWinner_gameResult, checkWinner_gameResult,
    scanConditions_lineSums_indep s.gameBoard s.gameResult initial.gameResult]

theorem outcome_eq (b : Board) (count : Int) :
    outcome b count =
      if scanConditions (lineSums b) IGNORE_RESULT ≠ IGNORE_RESULT then
        scanConditions (lineSums b) IGNORE_RESULT
      else if count ≥ 9 then DRAW else IGNORE_RESULT := by
  unfold outcome
  rw [checkWinner_gameResult,
    scanConditions_lineSums_indep b initial.gameResult IGNORE_RESULT]

theorem outcome_range (b : Board) (count : Int) :
    outcome b count = WINNER_X ∨ outcome b count = WINNER_O ∨ outcome b count = DRAW ∨
      outcome b count = IGNORE_RESULT := by
  rw [outcome_eq]
  rcases scanConditions_range b IGNORE_RESULT with h | h | h <;> rw [h]
  · exact Or.inl (if_pos (by decide))
  · exact Or.inr (Or.inl (if_pos (by decide)))
  · split_ifs
    · exact absurd rfl ‹_›
    · exact Or.inr (Or.inr (Or.inl rfl))
    · exact Or.inr (Or.inr (Or.inr rfl))

theorem setMessage_message (s : Session) (hrange : s.gameResult = WINNER_X ∨
    s.gameResult = WINNER_O ∨ s.gameResult = DRAW ∨ s.gameResult = IGNORE_RESULT)
    (hplaying : s.message = NO_MESSAGE) :
    (setMessage s).message = bannerOf s.gameResult := by
  unfold setMessage bannerOf
  rcases hrange with h | h | h | h <;> rw [h] <;>
    simp [hplaying, WINNER_X, WINNER_O, DRAW, IGNORE_RESULT, NO_MESSAGE]

theorem placed_gameResult (s : Session) (player : Int) (i : Fin 9) :
    (placed s player i).gameResult =
      outcome (Function.update s.gameBoard i player) (s.countMarks + 1) := by
  unfold placed
  rw [setMessage_gameResult, checkWinner_outcome]
  rfl

theorem placed_message (s : Session) (player : Int) (i : Fin 9)
    (hplaying : s.message = NO_MESSAGE) :
    (placed s player i).message = bannerOf (placed s player i).gameResult := by
  have h : (placed s player i).gameResult =
      (checkWinner (swapPlayer { s with
        gameBoard := Function.update s.gameBoard i player
        countMarks := s.countMarks + 1 })).gameResult := by
    unfold placed
    rw [setMessage_gameResult]
  rw [h]
  unfold placed
  apply setMessage_message
  · rw [checkWinner_outcome]
    exact outcome_range _ _
  · rw [checkWinner_message]
    exact hplaying

/-- C13: an accepted placement by `markAt` from a Playing session (`message ==
NO_MESSAGE`, cell in `0..8` empty) returns a session that is in RoundOver exactly when
the recomputed outcome is not `IGNORE_RESULT`, with the matching banner:
`X_WIN_MESSAGE` iff `WINNER_X`, `O_WIN_MESSAGE` iff `WINNER_O`, `DRAW_MESSAGE` iff
`DRAW`, `NO_MESSAGE` iff `IGNORE_RESULT`. -/
theorem placement_banner (s : Session) (player : Int) (i : Fin 9)
    (hplaying : s.message = NO_MESSAGE) (hempty : s.gameBoard i = NO_MARK) :
    ∃ t, markAt s player (i.val : Int) = .ok t ∧
      (t.message ≠ NO_MESSAGE ↔ t.gameResult ≠ IGNORE_RESULT) ∧
      (t.message = X_WIN_MESSAGE ↔ t.gameResult = WINNER_X) ∧
      (t.message = O_WIN_MESSAGE ↔ t.gameResult = WINNER_O) ∧
      (t.message = DRAW_MESSAGE ↔ t.gameResult = DRAW) ∧
      (t.message = NO_MESSAGE ↔ t.gameResult = IGNORE_RESULT) := by
  refine ⟨placed s player i, ?_, ?_⟩
  · rw [markAt_inRange, if_neg (not_not.mpr hempty)]
  · rw [placed_message s player i hplaying]
    have hr := outcome_range (Function.update s.gameBoard i player) (s.countMarks + 1)
    rw [← placed_gameResult] at hr
    rcases hr with h | h | h | h <;> rw [h] <;> decide

/-- C13 at `midGame` with `MARK_O` placed at the empty cell 2. -/
theorem placement_banner_witness :
    ∃ t, markAt midGame MARK_O (((2 : Fin 9).val : Nat) : Int) = .ok t ∧
      (t.message ≠ NO_MESSAGE ↔ t.gameResult ≠ IGNORE_RESULT) ∧
      (t.message = X_WIN_MESSAGE ↔ t.gameResult = WINNER_X) ∧
      (t.message = O_WIN_MESSAGE ↔ t.gameResult = WINNER_O) ∧
      (t.message = DRAW_MESSAGE ↔ t.gameResult = DRAW) ∧
      (t.message = NO_MESSAGE ↔ t.gameResult = IGNORE_RESULT) :=
  placement_banner midGame MARK_O 2 (by decide) (by decide)

/-! ## Rows come first -/

theorem winOutcome_ne_ignore (m : Int) : winOutcome m ≠ IGNORE_RESULT := by
  unfold winOutcome
  split_ifs <;> decide

/-- The scan stops at a uniformly filled first line. -/
theorem ite_filled {b : Board} {k : Fin 9 × Fin 9 × Fin 9} {m : Int} (rest : Int)
    (hm : m = MARK_X ∨ m = MARK_O) (hfill : lineFilled b k m) :
    (if lineFilled b k MARK_X then WINNER_X
      else if lineFilled b k MARK_O then WINNER_O else rest) = winOutcome m := by
  rcases hm with rfl | rfl
  · rw [if_pos hfill]
    rfl
  · have hx : ¬ lineFilled b k MARK_X := fun h =>
      absurd (lineFilled_unique h hfill) (by decide)
    rw [if_neg hx, if_pos hfill]
    rfl

/-- C14: on a board with cells in `MARK_X`, `NO_MARK`, `MARK_O` where row `r` is
uniformly filled with the mark `m` and no row of lower index is uniformly filled,
`checkWinner` leaves the win outcome of `m`, whatever columns and diagonals are
complete as well (so a move that completes a row and a column reports the row). -/
theorem checkWinner_row_first (s : Session) (hcells : validCells s.gameBoard)
    (r : Fin 3) (m : Int) (hm : m = MARK_X ∨ m = MARK_O)
    (hrow : lineFilled s.gameBoard (rowLine r) m)
    (hlowest : ∀ q : Fin 3, q < r →
      ¬ lineFilled s.gameBoard (rowLine q) MARK_X ∧
      ¬ lineFilled s.gameBoard (rowLine q) MARK_O) :
    (checkWinner s).gameResult = winOutcome m := by
  have key : scanConditions (lineSums s.gameBoard) s.gameResult = winOutcome m := by
    rw [scanConditions_filled _ _ hcells]
    have e0 : rowLine 0 = (0, 1, 2) := rfl
    have e1 : rowLine 1 = (3, 4, 5) := rfl
    have e2 : rowLine 2 = (6, 7, 8) := rfl
    fin_cases r
    · rw [show rowLine ⟨0, by decide⟩ = (0, 1, 2) from rfl] at hrow
      exact ite_filled _ hm hrow
    · rw [show rowLine ⟨1, by decide⟩ = (3, 4, 5) from rfl] at hrow
      have h0 := hlowest 0 (by decide)
      rw [e0] at h0
      rw [if_neg h0.1, if_neg h0.2]
      exact ite_filled _ hm hrow
    · rw [show rowLine ⟨2, by decide⟩ = (6, 7, 8) from rfl] at hrow
      have h0 := hlowest 0 (by decide)
      have h1 := hlowest 1 (by decide)
      rw [e0] at h0
      rw [e1] at h1
      rw [if_neg h0.1, if_neg h0.2, if_neg h1.1, if_neg h1.2]
      exact ite_filled _ hm hrow
  rw [checkWinner_gameResult, key, if_pos (winOutcome_ne_ignore m)]

/-- C14 at `rowAndColumn`: the middle row and the left column both hold `MARK_X`, the
board is full, and the outcome is `WINNER_X`. -/
theorem checkWinner_row_first_witness :
    lineFilled rowAndColumn.gameBoard (0, 3, 6) MARK_X ∧
      (checkWinner rowAndColumn).gameResult = WINNER_X :=
  ⟨by decide, checkWinner_row_first rowAndColumn (by decide) 1 MARK_X (Or.inl rfl)
    (by decide) (by decide)⟩

/-! ## Blink timer -/

theorem processLogic_showMark (env : Env) (s : Session)
    (hmoved : s.lastPosition ≠ s.currentPosition) :
    (processLogic env s).showMark =
      if MARK_DELAY - (s.timer.update env).delta < 0 then false else true := by
  simp only [processLogic, hmoved, ne_eq, not_false_eq_true, if_true]
  split_ifs <;> rfl

theorem Timer.update_delta_nonneg (t : Timer) (env : Env) : 0 ≤ (t.update env).delta := by
  unfold Timer.update
  positivity

/-- C15 fails for a long frame: in `hoverChanged` the hovered cell changed, and when the
frame took 600 ms (`delta` is 3/5, above `MARK_DELAY`) the countdown restarted by the
change expires in the same call and `showMark` is toggled to false. -/
theorem preview_hidden_after_long_frame :
    hoverChanged.lastPosition ≠ hoverChanged.currentPosition ∧
      (hoverChanged.timer.update ⟨0, 600⟩).delta = 3 / 5 ∧
      (processLogic ⟨0, 600⟩ hoverChanged).showMark = false := by
  have hd : (hoverChanged.timer.update ⟨0, 600⟩).delta = 3 / 5 := by
    simp only [Timer.update]
    norm_num [hoverChanged, midGame, setup, resetGame, Timer.setup, initial]
  refine ⟨by decide, hd, ?_⟩
  rw [processLogic_showMark _ _ (by decide), hd]
  norm_num [MARK_DELAY]

/-- C15, amended: in a frame in which the hovered cell changed (`lastPosition !=
currentPosition`), `delta` is not negative, and `showMark` is true after
`processLogic`, whatever `showMark` and `showMarkDelay` were before, exactly when
`delta` is at most `MARK_DELAY` (0.5 s); so it is for every frame with
`0 ≤ delta ≤ MARK_DELAY`. -/
theorem preview_visible_after_move (env : Env) (s : Session)
    (hmoved : s.lastPosition ≠ s.currentPosition) :
    0 ≤ (s.timer.update env).delta ∧
      ((processLogic env s).showMark = true ↔ (s.timer.update env).delta ≤ MARK_DELAY) := by
  refine ⟨Timer.update_delta_nonneg _ _, ?_⟩
  rw [processLogic_showMark env s hmoved]
  split_ifs with h
  · constructor
    · intro hf
      cases hf
    · intro hle
      linarith
  · constructor
    · intro _
      linarith
    · intro _
      rfl

/-- C15, amended, at `hoverChanged` after a frame of 16 ms: the preview is visible. -/
theorem preview_visible_after_move_witness :
    (processLogic ⟨0, 16⟩ hoverChanged).showMark = true :=
  (preview_visible_after_move ⟨0, 16⟩ hoverChanged (by decide)).2.mpr (by
    simp only [Timer.update]
    norm_num [hoverChanged, midGame, setup, resetGame, Timer.setup, initial, MARK_DELAY])

/-! ## A round won on the top row -/

/-- One accepted placement from a Playing session, by the cells `b` and the mark count
`c` before it. -/
theorem markAt_step (s : Session) (player : Int) (i : Fin 9) (b : Board) (c : Int)
    (hb : s.gameBoard = b) (hc : s.countMarks = c) (hplaying : s.message = NO_MESSAGE)
    (hempty : b i = NO_MARK) :
    markAt s player (i.val : Int) = .ok (placed s player i) ∧
      (placed s player i).gameBoard = Function.update b i player ∧
      (placed s player i).countMarks = c + 1 ∧
      (placed s player i).gameResult = outcome (Function.update b i player) (c + 1) ∧
      (placed s player i).message = bannerOf (outcome (Function.update b i player) (c + 1)) := by
  subst hb hc
  refine ⟨?_, placed_gameBoard _ _ _, placed_countMarks _ _ _, placed_gameResult _ _ _, ?_⟩
  · rw [markAt_inRange, if_neg (not_not.mpr hempty)]
  · rw [placed_message _ _ _ hplaying, placed_gameResult]

theorem top_row_run (s : Session) (A : Int) (hA : A = MARK_X ∨ A = MARK_O)
    (hb : s.gameBoard = fun _ => NO_MARK) (hc : s.countMarks = 0)
    (hplaying : s.message = NO_MESSAGE) :
    ∃ s1 s2 s3 s4 s5 : Session,
      markAt s A 0 = .ok s1 ∧ s1.gameResult = IGNORE_RESULT ∧ s1.message = NO_MESSAGE ∧
      markAt s1 (otherMark A) 4 = .ok s2 ∧ s2.gameResult = IGNORE_RESULT ∧
      s2.message = NO_MESSAGE ∧
      markAt s2 A 1 = .ok s3 ∧ s3.gameResult = IGNORE_RESULT ∧ s3.message = NO_MESSAGE ∧
      markAt s3 (otherMark A) 5 = .ok s4 ∧ s4.gameResult = IGNORE_RESULT ∧
      s4.message = NO_MESSAGE ∧
      markAt s4 A 2 = .ok s5 ∧
      s5.gameResult = winOutcome A ∧ s5.message = winBanner A := by
  rcases hA with rfl | rfl
  · obtain ⟨r1, b1, c1, g1, m1⟩ := markAt_step s MARK_X 0 _ _ hb hc hplaying rfl
    have p1 := m1.trans (show bannerOf _ = NO_MESSAGE by decide!)
    obtain ⟨r2, b2, c2, g2, m2⟩ := markAt_step _ (otherMark MARK_X) 4 _ _ b1 c1 p1 (by decide!)
    have p2 := m2.trans (show bannerOf _ = NO_MESSAGE by decide!)
    obtain ⟨r3, b3, c3, g3, m3⟩ := markAt_step _ MARK_X 1 _ _ b2 c2 p2 (by decide!)
    have p3 := m3.trans (show bannerOf _ = NO_MESSAGE by decide!)
    obtain ⟨r4, b4, c4, g4, m4⟩ := markAt_step _ (otherMark MARK_X) 5 _ _ b3 c3 p3 (by decide!)
    have p4 := m4.trans (show bannerOf _ = NO_MESSAGE by decide!)
    obtain ⟨r5, _, _, g5, m5⟩ := markAt_step _ MARK_X 2 _ _ b4 c4 p4 (by decide!)
    exact ⟨_, _, _, _, _, r1, g1.trans (by decide!), p1, r2, g2.trans (by decide!), p2,
      r3, g3.trans (by decide!), p3, r4, g4.trans (by decide!), p4, r5,
      g5.trans (by decide!), m5.trans (by decide!)⟩
  · obtain ⟨r1, b1, c1, g1, m1⟩ := markAt_step s MARK_O 0 _ _ hb hc hplaying rfl
    have p1 := m1.trans (show bannerOf _ = NO_MESSAGE by decide!)
    obtain ⟨r2, b2, c2, g2, m2⟩ := markAt_step _ (otherMark MARK_O) 4 _ _ b1 c1 p1 (by decide!)
    have p2 := m2.trans (show bannerOf _ = NO_MESSAGE by decide!)
    obtain ⟨r3, b3, c3, g3, m3⟩ := markAt_step _ MARK_O 1 _ _ b2 c2 p2 (by decide!)
    have p3 := m3.trans (show bannerOf _ = NO_MESSAGE by decide!)
    obtain ⟨r4, b4, c4, g4, m4⟩ := markAt_step _ (otherMark MARK_O) 5 _ _ b3 c3 p3 (by decide!)
    have p4 := m4.trans (show bannerOf _ = NO_MESSAGE by decide!)
    obtain ⟨r5, _, _, g5, m5⟩ := markAt_step _ MARK_O 2 _ _ b4 c4 p4 (by decide!)
    exact ⟨_, _, _, _, _, r1, g1.trans (by decide!), p1, r2, g2.trans (by decide!), p2,
      r3, g3.trans (by decide!), p3, r4, g4.trans (by decide!), p4, r5,
      g5.trans (by decide!), m5.trans (by decide!)⟩

/-- C16: from the session `resetGame` leaves, with `A` the active mark and `B` the
other one, the calls `markAt(A, 0)`, `markAt(B, 4)`, `markAt(A, 1)`, `markAt(B, 5)`,
`markAt(A, 2)` all return; `gameResult` is `IGNORE_RESULT` and `message` is
`NO_MESSAGE` after each of the first four, and after the fifth `gameResult` is the win
outcome of `A` and `message` is the win banner of `A`. -/
theorem top_row_scenario (env : Env) (s0 : Session) :
    ∃ s1 s2 s3 s4 s5 : Session,
      markAt (resetGame env s0) (resetGame env s0).currentPlayer 0 = .ok s1 ∧
      s1.gameResult = IGNORE_RESULT ∧ s1.message = NO_MESSAGE ∧
      markAt s1 (otherMark (resetGame env s0).currentPlayer) 4 = .ok s2 ∧
      s2.gameResult = IGNORE_RESULT ∧ s2.message = NO_MESSAGE ∧
      markAt s2 (resetGame env s0).currentPlayer 1 = .ok s3 ∧
      s3.gameResult = IGNORE_RESULT ∧ s3.message = NO_MESSAGE ∧
      markAt s3 (otherMark (resetGame env s0).currentPlayer) 5 = .ok s4 ∧
      s4.gameResult = IGNORE_RESULT ∧ s4.message = NO_MESSAGE ∧
      markAt s4 (resetGame env s0).currentPlayer 2 = .ok s5 ∧
      s5.gameResult = winOutcome (resetGame env s0).currentPlayer ∧
      s5.message = winBanner (resetGame env s0).currentPlayer :=
  top_row_run (resetGame env s0) _ (getRandomPlayer_mark env)
    (funext (resetGame_gameBoard env s0)) rfl rfl

/-! ## Bounds of the board access -/

theorem resetGame_release (env env2 : Env) (s0 : Session) :
    handleEvent env2 (resetGame env s0) (.mouseButtonUp SDL_BUTTON_LEFT) =
      .error (.outOfBounds (-1)) := by
  have h : ¬ ((0 : Int) ≤ -1 ∧ (-1 : Int) < 9) := by decide
  have hm := markAt_outOfRange (resetGame env s0) (resetGame env s0).currentPlayer (-1) h
  simp only [handleEvent]
  rw [if_neg (by decide), if_neg (by simp [resetGame])]
  simp only [SDL_BUTTON_LEFT, if_true]
  rw [if_pos (by simp [resetGame])]
  exact hm

/-- C17 fails on the code: in the session `resetGame` leaves (`currentPosition` and
`pressedRect` both -1), a frame with a left-button release, alone or after a left
press, makes `handleInput` call `markAt(currentPlayer, -1)`, whose access
`gameBoard[-1]` is outside the board. -/
theorem release_before_hover (env env1 env2 : Env) (s0 : Session) :
    handleInput (resetGame env s0) [(env1, .mouseButtonUp SDL_BUTTON_LEFT)] =
      .error (.outOfBounds (-1)) ∧
    handleInput (resetGame env s0)
      [(env1, .mouseButtonDown SDL_BUTTON_LEFT), (env2, .mouseButtonUp SDL_BUTTON_LEFT)] =
      .error (.outOfBounds (-1)) := by
  have h1 := resetGame_release env env1 s0
  have h2 := resetGame_release env env2 s0
  constructor
  · simp only [handleInput, handleEvents]
    have e : ({ resetGame env s0 with lastPosition := (resetGame env s0).currentPosition } :
        Session) = resetGame env s0 := rfl
    rw [e, h1]
  · simp only [handleInput, handleEvents]
    have e : ({ resetGame env s0 with lastPosition := (resetGame env s0).currentPosition } :
        Session) = resetGame env s0 := rfl
    have hd : handleEvent env1 (resetGame env s0) (.mouseButtonDown SDL_BUTTON_LEFT) =
        .ok (resetGame env s0) := by
      simp [handleEvent, resetGame]
    rw [e, hd]
    simp only
    rw [h2]

/-! ## What a scan result says about the lines -/

theorem scanConditions_ignore (l : List Int) :
    scanConditions l IGNORE_RESULT = IGNORE_RESULT → ∀ c ∈ l, c ≠ -3 ∧ c ≠ 3 := by
  induction l with
  | nil => intro _ c hc; cases hc
  | cons a rest ih =>
    intro h c hc
    rw [scanConditions_cons] at h
    by_cases h1 : a = -3
    · rw [if_pos h1] at h
      exact absurd h (by decide)
    · rw [if_neg h1] at h
      by_cases h2 : a = 3
      · rw [if_pos h2] at h
        exact absurd h (by decide)
      · rw [if_neg h2] at h
        rcases List.mem_cons.mp hc with rfl | hc
        · exact ⟨h1, h2⟩
        · exact ih h c hc

theorem scanConditions_winner_x (l : List Int) :
    scanConditions l IGNORE_RESULT = WINNER_X → ∃ c ∈ l, c = -3 := by
  induction l with
  | nil => intro h; exact absurd h (by decide)
  | cons a rest ih =>
    intro h
    rw [scanConditions_cons] at h
    by_cases h1 : a = -3
    · exact ⟨a, List.mem_cons_self _ _, h1⟩
    · rw [if_neg h1] at h
      by_cases h2 : a = 3
      · rw [if_pos h2] at h
        exact absurd h (by decide)
      · rw [if_neg h2] at h
        obtain ⟨c, hc, hc3⟩ := ih h
        exact ⟨c, List.mem_cons_of_mem _ hc, hc3⟩

theorem scanConditions_winner_o (l : List Int) :
    scanConditions l IGNORE_RESULT = WINNER_O → ∃ c ∈ l, c = 3 := by
  induction l with
  | nil => intro h; exact absurd h (by decide)
  | cons a rest ih =>
    intro h
    rw [scanConditions_cons] at h
    by_cases h1 : a = -3
    · rw [if_pos h1] at h
      exact absurd h (by decide)
    · rw [if_neg h1] at h
      by_cases h2 : a = 3
      · exact ⟨a, List.mem_cons_self _ _, h2⟩
      · rw [if_neg h2] at h
        obtain ⟨c, hc, hc3⟩ := ih h
        exact ⟨c, List.mem_cons_of_mem _ hc, hc3⟩

/-- The eight sums are the sums of the eight lines. -/
theorem mem_lineSums (b : Board) (c : Int) :
    c ∈ lineSums b ↔ ∃ k ∈ winLines, c = b k.1 + b k.2.1 + b k.2.2 := by
  simp [lineSums, winLines]

theorem lineFilled_x_iff (b : Board) (hcells : validCells b) (k : Fin 9 × Fin 9 × Fin 9) :
    lineFilled b k MARK_X ↔ b k.1 + b k.2.1 + b k.2.2 = -3 :=
  (sum_eq_neg_three _ _ _ (hcells k.1) (hcells k.2.1) (hcells k.2.2)).symm

theorem lineFilled_o_iff (b : Board) (hcells : validCells b) (k : Fin 9 × Fin 9 × Fin 9) :
    lineFilled b k MARK_O ↔ b k.1 + b k.2.1 + b k.2.2 = 3 :=
  (sum_eq_three _ _ _ (hcells k.1) (hcells k.2.1) (hcells k.2.2)).symm

/-- On a board of marks, a scan that ends at `IGNORE_RESULT` saw no complete line. -/
theorem noLineFilled_of_scan (b : Board) (hcells : validCells b)
    (h : scanConditions (lineSums b) IGNORE_RESULT = IGNORE_RESULT) : noLineFilled b := by
  intro k hk
  have hsum := scanConditions_ignore _ h (b k.1 + b k.2.1 + b k.2.2)
    ((mem_lineSums b _).mpr ⟨k, hk, rfl⟩)
  rw [lineFilled_x_iff b hcells, lineFilled_o_iff b hcells]
  exact hsum

/-- On a board of marks, a scan that ends at `WINNER_X` saw a line of `MARK_X`. -/
theorem lineFilled_of_scan_x (b : Board) (hcells : validCells b)
    (h : scanConditions (lineSums b) IGNORE_RESULT = WINNER_X) :
    ∃ k ∈ winLines, lineFilled b k MARK_X := by
  obtain ⟨c, hc, hc3⟩ := scanConditions_winner_x _ h
  obtain ⟨k, hk, rfl⟩ := (mem_lineSums b c).mp hc
  exact ⟨k, hk, (lineFilled_x_iff b hcells k).mpr hc3⟩

/-- On a board of marks, a scan that ends at `WINNER_O` saw a line of `MARK_O`. -/
theorem lineFilled_of_scan_o (b : Board) (hcells : validCells b)
    (h : scanConditions (lineSums b) IGNORE_RESULT = WINNER_O) :
    ∃ k ∈ winLines, lineFilled b k MARK_O := by
  obtain ⟨c, hc, hc3⟩ := scanConditions_winner_o _ h
  obtain ⟨k, hk, rfl⟩ := (mem_lineSums b c).mp hc
  exact ⟨k, hk, (lineFilled_o_iff b hcells k).mpr hc3⟩

theorem validCells_update (b : Board) (i : Fin 9) (p : Int) (hcells : validCells b)
    (hp : p = MARK_X ∨ p = MARK_O) : validCells (Function.update b i p) := by
  intro j
  by_cases hj : j = i
  · subst hj
    rw [Function.update_same]
    rcases hp with h | h
    · exact Or.inl h
    · exact Or.inr (Or.inr h)
  · rw [Function.update_noteq hj]
    exact hcells j

theorem countNonEmpty_update (b : Board) (i : Fin 9) (p : Int) (hempty : b i = NO_MARK)
    (hp : p ≠ NO_MARK) :
    countNonEmpty (Function.update b i p) = countNonEmpty b + 1 := by
  have h := countP_update b i p (fun v => decide (v ≠ NO_MARK))
    (by simp [hempty]) (List.finRange 9) (List.nodup_finRange 9)
  simp only [List.mem_finRange, true_and, decide_eq_true_eq, hp, ne_eq, not_false_eq_true,
    if_true] at h
  exact h

/-- A line that a placement fills and that was not filled before holds the placed mark. -/
theorem lineFilled_update (b : Board) (i : Fin 9) (p m : Int) (k : Fin 9 × Fin 9 × Fin 9)
    (hnew : lineFilled (Function.update b i p) k m) (hold : ¬ lineFilled b k m) : p = m := by
  obtain ⟨h1, h2, h3⟩ := hnew
  by_cases e1 : k.1 = i
  · rw [e1, Function.update_same] at h1
    exact h1
  by_cases e2 : k.2.1 = i
  · rw [e2, Function.update_same] at h2
    exact h2
  by_cases e3 : k.2.2 = i
  · rw [e3, Function.update_same] at h3
    exact h3
  rw [Function.update_noteq e1] at h1
  rw [Function.update_noteq e2] at h2
  rw [Function.update_noteq e3] at h3
  exact absurd ⟨h1, h2, h3⟩ hold

/-! ## The invariant of a round -/

theorem roundInvariant_resetGame (env : Env) (s0 : Session) :
    roundInvariant (resetGame env s0) := by
  refine ⟨fun i => Or.inr (Or.inl (resetGame_gameBoard env s0 i)),
    getRandomPlayer_mark env, ?_, fun _ k _ => ⟨?_, ?_⟩⟩
  · have h : countNonEmpty (resetGame env s0).gameBoard = 0 := by
      unfold countNonEmpty
      rw [List.countP_eq_zero]
      intro i _
      simp [resetGame_gameBoard]
    rw [h]
    rfl
  · intro h
    have h1 := h.1
    rw [resetGame_gameBoard] at h1
    exact absurd h1 (by decide)
  · intro h
    have h1 := h.1
    rw [resetGame_gameBoard] at h1
    exact absurd h1 (by decide)

theorem bannerOf_eq_noMessage (r : Int) (hr : r = WINNER_X ∨ r = WINNER_O ∨ r = DRAW ∨
    r = IGNORE_RESULT) (h : bannerOf r = NO_MESSAGE) : r = IGNORE_RESULT := by
  rcases hr with rfl | rfl | rfl | rfl
  · exact absurd h (by decide)
  · exact absurd h (by decide)
  · exact absurd h (by decide)
  · rfl

theorem scan_of_outcome_ignore (b : Board) (count : Int)
    (h : outcome b count = IGNORE_RESULT) :
    scanConditions (lineSums b) IGNORE_RESULT = IGNORE_RESULT := by
  rw [outcome_eq] at h
  by_contra hne
  rw [if_pos hne] at h
  exact hne h

theorem roundInvariant_placed (s : Session) (i : Fin 9) (hinv : roundInvariant s)
    (hplaying : s.message = NO_MESSAGE) (hempty : s.gameBoard i = NO_MARK) :
    roundInvariant (placed s s.currentPlayer i) := by
  obtain ⟨hcells, hplayer, hcount, _⟩ := hinv
  have hne : s.currentPlayer ≠ NO_MARK := by
    rcases hplayer with h | h <;> rw [h] <;> decide
  have hcells2 := validCells_update s.gameBoard i s.currentPlayer hcells hplayer
  refine ⟨?_, ?_, ?_, ?_⟩
  · rw [placed_gameBoard]
    exact hcells2
  · rw [placed_currentPlayer_other s _ i hplayer]
    exact otherMark_mark _
  · rw [placed_countMarks, placed_gameBoard, countNonEmpty_update _ _ _ hempty hne, hcount]
    push_cast
    rfl
  · intro hmsg
    rw [placed_message s _ i hplaying] at hmsg
    have hr := outcome_range (Function.update s.gameBoard i s.currentPlayer) (s.countMarks + 1)
    rw [← placed_gameResult] at hr
    have hg := bannerOf_eq_noMessage _ hr hmsg
    rw [placed_gameResult] at hg
    rw [placed_gameBoard]
    exact noLineFilled_of_scan _ hcells2 (scan_of_outcome_ignore _ _ hg)

theorem roundInvariant_handleEvent (env : Env) (s t : Session) (event : Event)
    (hinv : roundInvariant s) (h : handleEvent env s event = .ok t) : roundInvariant t := by
  rcases handleEvent_cases env s t event h with ⟨hb, hc, hp, hm, _⟩ | ⟨_, _, rfl⟩ |
    ⟨hplaying, _, i, _, _, hempty, rfl⟩
  · unfold roundInvariant at hinv ⊢
    rw [hb, hc, hp, hm]
    exact hinv
  · exact roundInvariant_resetGame env s
  · exact roundInvariant_placed s i hinv hplaying hempty

theorem roundInvariant_handleEvents (events : List (Env × Event)) :
    ∀ s t : Session, roundInvariant s → handleEvents s events = .ok t → roundInvariant t := by
  induction events with
  | nil =>
    intro s t hinv h
    cases h
    exact hinv
  | cons e rest ih =>
    intro s t hinv h
    obtain ⟨env, event⟩ := e
    simp only [handleEvents] at h
    cases hstep : handleEvent env s event with
    | error e => rw [hstep] at h; cases h
    | ok s1 =>
      rw [hstep] at h
      exact ih s1 t (roundInvariant_handleEvent env s s1 event hinv hstep) h

theorem roundInvariant_reachable (s : Session) (h : Reachable s) : roundInvariant s := by
  induction h with
  | reset env s0 => exact roundInvariant_resetGame env s0
  | frame events _ hrun ih =>
    exact roundInvariant_handleEvents events _ _ (by exact ih) hrun

/-- C19: in every session reachable from a `resetGame` session through frames of
`handleInput` that return, `countMarks` is the number of cells that are not `NO_MARK`,
hence between 0 and 9, and the draw test `countMarks >= BOARD_SIZE` holds exactly when
no cell is empty. -/
theorem countMarks_counts_cells (s : Session) (h : Reachable s) :
    s.countMarks = (countNonEmpty s.gameBoard : Int) ∧
      0 ≤ s.countMarks ∧ s.countMarks ≤ 9 ∧
      (s.countMarks ≥ (BOARD_SIZE : Int) ↔ ∀ i, s.gameBoard i ≠ NO_MARK) := by
  obtain ⟨_, _, hcount, _⟩ := roundInvariant_reachable s h
  have hle := countNonEmpty_le s.gameBoard
  have hnine := countNonEmpty_eq_nine s.gameBoard
  have hb : ((BOARD_SIZE : Nat) : Int) = 9 := rfl
  refine ⟨hcount, by omega, by omega, ?_⟩
  rw [← hnine, hb]
  omega

/-- C19 at the session after `setup` and one frame with a click on cell 0. -/
theorem countMarks_counts_cells_witness :
    firstClick.countMarks = (countNonEmpty firstClick.gameBoard : Int) ∧
      0 ≤ firstClick.countMarks ∧ firstClick.countMarks ≤ 9 ∧
      (firstClick.countMarks ≥ (BOARD_SIZE : Int) ↔ ∀ i, firstClick.gameBoard i ≠ NO_MARK) :=
  countMarks_counts_cells firstClick
    (Reachable.frame (click 10 10) (Reachable.reset ⟨0, 0⟩ _) firstClick_run)

/-! ## The winner is the mover -/

theorem scan_of_outcome_x (b : Board) (count : Int) (h : outcome b count = WINNER_X) :
    scanConditions (lineSums b) IGNORE_RESULT = WINNER_X := by
  rw [outcome_eq] at h
  by_cases hne : scanConditions (lineSums b) IGNORE_RESULT ≠ IGNORE_RESULT
  · rw [if_pos hne] at h
    exact h
  · rw [if_neg hne] at h
    split_ifs at h <;> exact absurd h (by decide)

theorem scan_of_outcome_o (b : Board) (count : Int) (h : outcome b count = WINNER_O) :
    scanConditions (lineSums b) IGNORE_RESULT = WINNER_O := by
  rw [outcome_eq] at h
  by_cases hne : scanConditions (lineSums b) IGNORE_RESULT ≠ IGNORE_RESULT
  · rw [if_pos hne] at h
    exact h
  · rw [if_neg hne] at h
    split_ifs at h <;> exact absurd h (by decide)

/-- A placement on a board of marks without a complete line: an outcome `WINNER_X`
means `MARK_X` was placed, an outcome `WINNER_O` means `MARK_O` was placed. -/
theorem placed_winner (s : Session) (i : Fin 9) (hinv : roundInvariant s)
    (hplaying : s.message = NO_MESSAGE) :
    ((placed s s.currentPlayer i).gameResult = WINNER_X → s.currentPlayer = MARK_X) ∧
    ((placed s s.currentPlayer i).gameResult = WINNER_O → s.currentPlayer = MARK_O) := by
  obtain ⟨hcells, hplayer, _, hno⟩ := hinv
  have hcells2 := validCells_update s.gameBoard i s.currentPlayer hcells hplayer
  constructor
  · intro h
    rw [placed_gameResult] at h
    obtain ⟨k, hk, hfill⟩ := lineFilled_of_scan_x _ hcells2 (scan_of_outcome_x _ _ h)
    exact lineFilled_update _ _ _ _ k hfill (hno hplaying k hk).1
  · intro h
    rw [placed_gameResult] at h
    obtain ⟨k, hk, hfill⟩ := lineFilled_of_scan_o _ hcells2 (scan_of_outcome_o _ _ h)
    exact lineFilled_update _ _ _ _ k hfill (hno hplaying k hk).2

/-- C18: in a Playing session reachable from a `resetGame` session through frames of
`handleInput` that return, `markAt(currentPlayer, position)` at an empty cell in `0..8`
returns, and when the outcome it computes is a win, the winner is the mark just
placed (`WINNER_X` iff the mover was `MARK_X`, `WINNER_O` iff the mover was `MARK_O`)
and `currentPlayer` after the call is the other, losing mark. -/
theorem winner_is_mover (s : Session) (i : Fin 9) (hreach : Reachable s)
    (hplaying : s.message = NO_MESSAGE) (hempty : s.gameBoard i = NO_MARK) :
    ∃ t, markAt s s.currentPlayer (i.val : Int) = .ok t ∧
      ((t.gameResult = WINNER_X ∨ t.gameResult = WINNER_O) →
        (t.gameResult = WINNER_X ↔ s.currentPlayer = MARK_X) ∧
        (t.gameResult = WINNER_O ↔ s.currentPlayer = MARK_O) ∧
        t.currentPlayer = otherMark s.currentPlayer ∧
        t.currentPlayer ≠ s.currentPlayer) := by
  have hinv := roundInvariant_reachable s hreach
  obtain ⟨hx, ho⟩ := placed_winner s i hinv hplaying
  have hplayer := hinv.2.1
  refine ⟨placed s s.currentPlayer i, ?_, fun hwin => ⟨⟨hx, fun hp => ?_⟩,
    ⟨ho, fun hp => ?_⟩, placed_currentPlayer_other s _ i hplayer, ?_⟩⟩
  · rw [markAt_inRange, if_neg (not_not.mpr hempty)]
  · rcases hwin with h | h
    · exact h
    · have := ho h
      rw [hp] at this
      exact absurd this (by decide)
  · rcases hwin with h | h
    · have := hx h
      rw [hp] at this
      exact absurd this (by decide)
    · exact h
  · rw [placed_currentPlayer_other s _ i hplayer]
    rcases hplayer with h | h <;> rw [h] <;> decide

theorem beforeWin_run :
    handleInput (setup ⟨0, 0⟩ initial) fourClicks = .ok beforeWin :=
  ok_sessionOf _ (by decide!)

theorem beforeWin_values :
    (∀ i, beforeWin.gameBoard i =
      ![MARK_X, MARK_X, NO_MARK, MARK_O, MARK_O, NO_MARK, NO_MARK, NO_MARK, NO_MARK] i) ∧
      beforeWin.currentPlayer = MARK_X ∧ beforeWin.message = NO_MESSAGE ∧
      (sessionOf (markAt beforeWin beforeWin.currentPlayer 2)).gameResult = WINNER_X := by
  decide!

/-- C18 at `beforeWin`, where `MARK_X` at cell 2 completes the top row. -/
theorem winner_is_mover_witness :
    ∃ t, markAt beforeWin beforeWin.currentPlayer (((2 : Fin 9).val : Nat) : Int) = .ok t ∧
      ((t.gameResult = WINNER_X ∨ t.gameResult = WINNER_O) →
        (t.gameResult = WINNER_X ↔ beforeWin.currentPlayer = MARK_X) ∧
        (t.gameResult = WINNER_O ↔ beforeWin.currentPlayer = MARK_O) ∧
        t.currentPlayer = otherMark beforeWin.currentPlayer ∧
        t.currentPlayer ≠ beforeWin.currentPlayer) :=
  winner_is_mover beforeWin 2
    (Reachable.frame fourClicks (Reachable.reset ⟨0, 0⟩ _) beforeWin_run)
    (by decide!) (by decide!)

/-! ## From pointer position to hovered cell -/

/-- The rectangle of cell `i` after `setup` contains `(x, y)` exactly when `x` is in
column `i % 3` and `y` in row `i / 3` of the 166-pixel grid. -/
theorem pointInRect_setup (r0 : Fin 9 → SDL_Rect) (x y : Int) (i : Fin 9) :
    pointInRect x y (setupRects r0 i) = true ↔
      (166 * ((i.val % 3 : Nat) : Int) ≤ x ∧ x < 166 * ((i.val % 3 : Nat) : Int) + 166) ∧
      (166 * ((i.val / 3 : Nat) : Int) ≤ y ∧ y < 166 * ((i.val / 3 : Nat) : Int) + 166) := by
  simp only [pointInRect, setupRects_apply, Bool.and_eq_true, decide_eq_true_eq, ge_iff_le]
  tauto

theorem find_unique (p : Fin 9 → Bool) (k : Fin 9) (l : List (Fin 9)) (hk : k ∈ l)
    (hp : p k = true) (huniq : ∀ i, p i = true → i = k) : l.find? p = some k := by
  induction l with
  | nil => cases hk
  | cons a rest ih =>
    by_cases ha : p a = true
    · rw [List.find?_cons_of_pos _ ha, huniq a ha]
    · rw [List.find?_cons_of_neg _ ha]
      rcases List.mem_cons.mp hk with rfl | hk
      · exact absurd hp ha
      · exact ih hk

/-- Inside the grid the loop of the motion branch finds the cell `3 * (y / 166) + x / 166`. -/
theorem hitRect_inside (r0 : Fin 9 → SDL_Rect) (x y : Int)
    (hx0 : 0 ≤ x) (hx1 : x < 498) (hy0 : 0 ≤ y) (hy1 : y < 498) :
    ∃ i : Fin 9, hitRect (setupRects r0) x y = some i ∧
      (i.val : Int) = 3 * (y / 166) + x / 166 := by
  have hlt : (3 * (y / 166) + x / 166).toNat < 9 := by omega
  refine ⟨⟨(3 * (y / 166) + x / 166).toNat, hlt⟩, ?_, ?_⟩
  · apply find_unique _ _ _ (List.mem_finRange _)
    · rw [pointInRect_setup]
      simp only
      omega
    · intro i hi
      rw [pointInRect_setup] at hi
      apply Fin.ext
      simp only
      omega
  · simp only
    omega

/-- Outside the grid no rectangle contains the point. -/
theorem hitRect_outside (r0 : Fin 9 → SDL_Rect) (x y : Int)
    (hout : ¬ (0 ≤ x ∧ x < 498 ∧ 0 ≤ y ∧ y < 498)) :
    hitRect (setupRects r0) x y = none := by
  unfold hitRect
  rw [List.find?_eq_none]
  intro i _ hi
  rw [pointInRect_setup] at hi
  have := i.isLt
  omega

/-- C20: with the rectangles `setup` builds (tile size 500 / 3 = 166), a pointer move to
`(x, y)` in Playing sets `currentPosition` to `3 * (y / 166) + x / 166` and nothing else
when `0 ≤ x < 498` and `0 ≤ y < 498`, and returns the session unchanged when `x` or `y`
is outside `[0, 498)`; no point lies in two of the 9 rectangles. -/
theorem hover_cell (env : Env) (s : Session) (r0 : Fin 9 → SDL_Rect)
    (hplaying : s.message = NO_MESSAGE) (hrects : s.rects = setupRects r0) :
    (∀ x y : Int, 0 ≤ x → x < 498 → 0 ≤ y → y < 498 →
      handleEvent env s (.mouseMotion x y) =
        .ok { s with currentPosition := 3 * (y / 166) + x / 166 }) ∧
    (∀ x y : Int, ¬ (0 ≤ x ∧ x < 498 ∧ 0 ≤ y ∧ y < 498) →
      handleEvent env s (.mouseMotion x y) = .ok s) ∧
    (∀ i j : Fin 9, i ≠ j → ∀ x y : Int,
      ¬ (pointInRect x y (s.rects i) = true ∧ pointInRect x y (s.rects j) = true)) := by
  refine ⟨fun x y hx0 hx1 hy0 hy1 => ?_, fun x y hout => ?_, fun i j hij x y hboth => ?_⟩
  · obtain ⟨i, hhit, hi⟩ := hitRect_inside r0 x y hx0 hx1 hy0 hy1
    simp [handleEvent, hplaying, hrects, hhit, hi]
  · have hhit := hitRect_outside r0 x y hout
    simp [handleEvent, hplaying, hrects, hhit]
  · rw [hrects, pointInRect_setup, pointInRect_setup] at hboth
    apply hij
    apply Fin.ext
    omega

/-- C20 at `midGame`: the point `(170, 400)` is in cell 7, and the window pixels
`(499, 10)` and `(10, 498)` are in no cell. -/
theorem hover_cell_witness :
    handleEvent ⟨0, 0⟩ midGame (.mouseMotion 170 400) =
        .ok { midGame with currentPosition := 3 * (400 / 166) + 170 / 166 } ∧
      handleEvent ⟨0, 0⟩ midGame (.mouseMotion 499 10) = .ok midGame ∧
      handleEvent ⟨0, 0⟩ midGame (.mouseMotion 10 498) = .ok midGame :=
  ⟨(hover_cell ⟨0, 0⟩ midGame initial.rects rfl rfl).1 170 400
      (by decide) (by decide) (by decide) (by decide),
   (hover_cell ⟨0, 0⟩ midGame initial.rects rfl rfl).2.1 499 10 (by decide),
   (hover_cell ⟨0, 0⟩ midGame initial.rects rfl rfl).2.1 10 498 (by decide)⟩

end TicTacToe
